import Mathlib

/-!
Verification development for the training-time loss core of the repository
(file `yolov6/models/losses/loss.py`).

The embedding works over exact rationals (`Rat`).  Tensors are lists of
rationals (or of boxes), flattened over the anchor axis; per-image
ground-truth tensors are lists of per-image lists.  Device placement and
numeric precision are modelled by tags attached to tensors, since the
out-of-memory recovery protocol and the full-precision classification loss
are about those tags, not about values.

Python exceptions and floating-point poison values are modelled by a single
error monad `Except Err`: `Err.runtimeErr` corresponds to `RuntimeError`
(the CUDA out-of-memory error is the instance `runtimeErr true`),
`Err.indexErr` to the failure of `F.cross_entropy` on an out-of-range class
index, and `Err.nanPoison` to a division producing NaN/Inf.  Every division
whose denominator is not a syntactic nonzero constant goes through
`checkedDiv`, so a `.ok` result means the computation is finite and no
division by zero happened.

External collaborators (the anchor generator, both assigners, the IoU
formula, softmax, the binary/categorical cross-entropy kernels and the
power function of the numeric library) are opaque function parameters
collected in `Env`; the loss file itself is translated definition by
definition.  The helpers `xywh2xyxy`, `dist2bbox` and `bbox2dist` are
imported by the loss file from repository code that is not part of the
given sources; they are modelled from the specification and marked as such.
-/

/-- Device tag of a tensor: the accelerator or host memory. -/
inductive Device
  | cuda
  | cpu
deriving DecidableEq

/-- Numeric precision tag of a tensor: reduced (half) or full (float32). -/
inductive Dtype
  | f16
  | f32
deriving DecidableEq

/-- A tensor value together with its device and precision tags. -/
structure Tagged (α : Type) where
  val : α
  device : Device
  dt : Dtype
deriving DecidableEq

/-- `t.cpu().float()`: move to host memory and cast to full precision. -/
def Tagged.cpuFloat {α : Type} (t : Tagged α) : Tagged α :=
  ⟨t.val, Device.cpu, Dtype.f32⟩

/-- `t.cuda()`: move back to the accelerator (precision unchanged). -/
def Tagged.toCuda {α : Type} (t : Tagged α) : Tagged α :=
  ⟨t.val, Device.cuda, t.dt⟩

/-- `t.float()`: cast to full precision (device unchanged). -/
def Tagged.toFloat32 {α : Type} (t : Tagged α) : Tagged α :=
  ⟨t.val, t.device, Dtype.f32⟩

/-- Result dtype of a binary tensor op outside any reduced-precision
autocast region: full precision wins the promotion. -/
def promoteDt : Dtype → Dtype → Dtype
  | Dtype.f32, _ => Dtype.f32
  | _, Dtype.f32 => Dtype.f32
  | _, _ => Dtype.f16

/-- Failure kinds of the embedded computation.  `runtimeErr oom` is a
Python `RuntimeError` (`oom = true` for the CUDA out-of-memory error);
`indexErr` is the failure of `F.cross_entropy` on an invalid class index;
`nanPoison` marks a division by zero, i.e. a NaN/Inf value. -/
inductive Err
  | runtimeErr (oom : Bool)
  | indexErr
  | nanPoison
deriving DecidableEq

/-- Division that fails (NaN/Inf poison) instead of dividing by zero. -/
def checkedDiv (a b : Rat) : Except Err Rat :=
  if b = 0 then Except.error Err.nanPoison else Except.ok (a / b)

/-- Effectful map over a list in the `Except Err` monad, left to right,
failing fast like the corresponding tensor kernel would. -/
def mapME {α β : Type} (f : α → Except Err β) : List α → Except Err (List β)
  | [] => Except.ok []
  | x :: xs => do
    let y ← f x
    let ys ← mapME f xs
    Except.ok (y :: ys)

/-- An axis-aligned box in corner form. -/
structure Box where
  x1 : Rat
  y1 : Rat
  x2 : Rat
  y2 : Rat
deriving DecidableEq

/-- `box.sum(-1)` over the four corner coordinates. -/
def Box.coordSum (b : Box) : Rat := b.x1 + b.y1 + b.x2 + b.y2

/-- Elementwise division of a box by a scalar (used for the rescale by the
per-anchor stride), with NaN poisoning on a zero divisor. -/
def Box.cdiv (b : Box) (s : Rat) : Except Err Box := do
  let a ← checkedDiv b.x1 s
  let c ← checkedDiv b.y1 s
  let d ← checkedDiv b.x2 s
  let e ← checkedDiv b.y2 s
  Except.ok ⟨a, c, d, e⟩

/-- Elementwise multiplication of a box by a scalar (`pred_bboxes * stride`). -/
def Box.scale (b : Box) (s : Rat) : Box :=
  ⟨b.x1 * s, b.y1 * s, b.x2 * s, b.y2 * s⟩

/-- Three-list `zipWith`. -/
def zip3W {α β γ δ : Type} (f : α → β → γ → δ) : List α → List β → List γ → List δ
  | a :: as, b :: bs, c :: cs => f a b c :: zip3W f as bs cs
  | _, _, _ => []

/-- Elementwise binary op on a two-dimensional tensor. -/
def zipW2d {α β γ : Type} (f : α → β → γ) (x : List (List α)) (y : List (List β)) : List (List γ) :=
  List.zipWith (List.zipWith f) x y

/-- Elementwise ternary op on a two-dimensional tensor. -/
def zip3W2d {α β γ δ : Type} (f : α → β → γ → δ) (x : List (List α)) (y : List (List β)) (z : List (List γ)) : List (List δ) :=
  zip3W (zip3W f) x y z

/-- Sum of all the entries of a two-dimensional tensor. -/
def sum2 (l : List (List Rat)) : Rat := (l.map List.sum).sum

/-- `torch.masked_select` with a per-row boolean mask followed by the
reshape back to rows: keep the rows whose mask entry is true. -/
def maskedSel {α : Type} (m : List Bool) (xs : List α) : List α :=
  ((m.zip xs).filter (fun p => p.1)).map (fun p => p.2)

/-- Auxiliary chunking with explicit fuel (the list length). -/
def chunksOfAux {α : Type} (k : Nat) : Nat → List α → List (List α)
  | 0, _ => []
  | _ + 1, [] => []
  | fuel + 1, x :: xs => (x :: xs).take k :: chunksOfAux k fuel ((x :: xs).drop k)

/-- `view(-1, k)`-style reshape of a flat row into chunks of size `k`. -/
def chunksOf {α : Type} (k : Nat) (l : List α) : List (List α) :=
  chunksOfAux k l.length l

/-- Dot product of two flat rows. -/
def dotL (a b : List Rat) : Rat := (List.zipWith (fun x y => x * y) a b).sum

/-- `x.to(torch.long)` on a real scalar: truncation toward zero. -/
def ratTrunc (q : Rat) : Int := if 0 ≤ q then ⌊q⌋ else -⌊-q⌋

/-- `F.one_hot(label.long(), C+1)[..., :-1]`: one-hot over `C+1` classes
with the final (background) column dropped. -/
def oneHotDrop (C : Nat) (l : Rat) : List Rat :=
  ((List.range (C + 1)).map (fun j => if ratTrunc l = (j : Int) then (1 : Rat) else 0)).dropLast

/-- `torch.where(fg_mask > 0, target_labels, num_classes)`. -/
def relabel (C : Nat) (fg : List Bool) (labels : List Rat) : List Rat :=
  List.zipWith (fun f l => if f then l else (C : Rat)) fg labels

/-- `(gt_bboxes.sum(-1, keepdim=True) > 0).float()` applied to one row:
the validity mask of a ground-truth box, decided by its coordinate sum. -/
def boxValidMask (b : Box) : Rat := if 0 < b.coordSum then 1 else 0

/-- Modelled from the spec: `xywh2xyxy` (imported by the loss file from
`yolov6/utils/general.py`, not among the given sources) converts a center
form box to corner form by the exact inverse transform, no clamping. -/
def xywh2xyxy (cx cy w h : Rat) : Box :=
  ⟨cx - w / 2, cy - h / 2, cx + w / 2, cy + h / 2⟩

/-- Modelled from the spec: `dist2bbox` (same missing module) turns an
anchor point and (left, top, right, bottom) distances into the corner box
`(x - l, y - t, x + r, y + b)`. -/
def dist2bbox (p : Rat × Rat) (d : List Rat) : Box :=
  ⟨p.1 - d.getD 0 0, p.2 - d.getD 1 0, p.1 + d.getD 2 0, p.2 + d.getD 3 0⟩

/-- `torch.clamp(x, lo, hi)`: the lower bound is applied first. -/
def clampTo (lo hi x : Rat) : Rat := min (max x lo) hi

/-- Modelled from the spec: `bbox2dist` (same missing module) is the
inverse of `dist2bbox`, with each distance clamped to
`[0, reg_max - eps]` for a small positive `eps` so that the distances stay
representable by the discrete bin distribution. -/
def bbox2dist (p : Rat × Rat) (b : Box) (regMax : Nat) (eps : Rat) : List Rat :=
  [clampTo 0 ((regMax : Rat) - eps) (p.1 - b.x1),
   clampTo 0 ((regMax : Rat) - eps) (p.2 - b.y1),
   clampTo 0 ((regMax : Rat) - eps) (b.x2 - p.1),
   clampTo 0 ((regMax : Rat) - eps) (b.y2 - p.2)]

/-- One raw target row `[class, cx, cy, w, h]` as handled by `preprocess`. -/
structure Row5 where
  cls : Rat
  x : Rat
  y : Rat
  w : Rat
  h : Rat
deriving DecidableEq

/-- The all-zero row seeded by `np.zeros((batch_size, 1, 5))`. -/
def Row5.zero : Row5 := ⟨0, 0, 0, 0, 0⟩

/-- The sentinel padding row `[-1, 0, 0, 0, 0]`. -/
def Row5.sentinel : Row5 := ⟨-1, 0, 0, 0, 0⟩

/-- One flat ground-truth record `(image_index, class, cx, cy, w, h)`. -/
structure GtRow where
  img : Nat
  row : Row5
deriving DecidableEq

/-- Output of `generate_anchors` (external collaborator). -/
structure AnchorsOut where
  anchors : List Box
  anchorPoints : List (Rat × Rat)
  nAnchorsList : List Nat
  strideTensor : List Rat
deriving DecidableEq

/-- Argument record of the warmup (ATSS) assigner call in `__call__`:
`(anchors, n_anchors_list, gt_labels, gt_bboxes, mask_gt,
pred_bboxes.detach() * stride_tensor)`. -/
structure WarmupArgs where
  anchors : Tagged (List Box)
  nAnchorsList : List Nat
  gtLabels : Tagged (List (List Rat))
  gtBboxes : Tagged (List (List Box))
  maskGt : Tagged (List (List Rat))
  predBboxes : Tagged (List Box)
deriving DecidableEq

/-- Argument record of the formal (task-aligned) assigner call:
`(pred_scores.detach(), pred_bboxes.detach() * stride_tensor,
anchor_points, gt_labels, gt_bboxes, mask_gt)`. -/
structure FormalArgs where
  predScores : Tagged (List (List Rat))
  predBboxes : Tagged (List Box)
  anchorPoints : Tagged (List (Rat × Rat))
  gtLabels : Tagged (List (List Rat))
  gtBboxes : Tagged (List (List Box))
  maskGt : Tagged (List (List Rat))
deriving DecidableEq

/-- The four tensors produced by either assigner:
`(target_labels, target_bboxes, target_scores, fg_mask)`. -/
structure Assignment where
  targetLabels : Tagged (List Rat)
  targetBboxes : Tagged (List Box)
  targetScores : Tagged (List (List Rat))
  fgMask : Tagged (List Bool)
deriving DecidableEq

/-- The four `.cuda()` calls moving the retried assignment back to the
accelerator. -/
def Assignment.allCuda (a : Assignment) : Assignment :=
  ⟨a.targetLabels.toCuda, a.targetBboxes.toCuda, a.targetScores.toCuda, a.fgMask.toCuda⟩

/-- Opaque external collaborators of the loss file, as function parameters:
the anchor generator, the numeric library kernels (softmax, the IoU loss
formula, binary cross-entropy — indexed by its compute precision — and
categorical cross-entropy and the power function) and the two assigners,
which may fail like any CUDA kernel. -/
structure Env (F : Type) where
  genAnchors : List F → List Rat → Rat → Rat → AnchorsOut
  softmax : List Rat → List Rat
  iou : Box → Box → Rat
  bce : Dtype → Rat → Rat → Rat
  ce : List Rat → Int → Rat
  rpow : Rat → Rat → Rat
  warmup : WarmupArgs → Except Err Assignment
  formal : FormalArgs → Except Err Assignment

/-- Construction-time configuration of a loss composer. -/
structure Cfg where
  fpnStrides : List Rat
  gridCellSize : Rat
  gridCellOffset : Rat
  numClasses : Nat
  oriImgSize : Rat
  warmupEpoch : Int
  useDfl : Bool
  regMax : Nat
  distEps : Rat
  wClass : Rat
  wIou : Rat
  wDfl : Rat
deriving DecidableEq

/-- Return value of a composer call: the scalar total loss and the
(detached) component vector `[iou, dfl, class, [gating]]`. -/
structure LossOut where
  total : Rat
  comps : List Rat
deriving DecidableEq

namespace VarifocalLoss

/-- `VarifocalLoss.forward`: the weight tensor is computed in the ambient
precision, then `F.binary_cross_entropy(pred_score.float(),
gt_score.float())` runs inside `torch.amp.autocast(enabled=False)`, so the
cross-entropy kernel is invoked at the promotion of the two full-precision
casts; the weighted sum over every anchor and class is returned. -/
def forward {F : Type} (env : Env F) (predScore gtScore : Tagged (List (List Rat)))
    (label : List (List Rat)) (alpha gamma : Rat) : Rat :=
  let weight :=
    zip3W2d (fun p g l => alpha * env.rpow p gamma * (1 - l) + g * l)
      predScore.val gtScore.val label
  let pf := predScore.toFloat32
  let gf := gtScore.toFloat32
  let bceT := zipW2d (env.bce (promoteDt pf.dt gf.dt)) pf.val gf.val
  sum2 (zipW2d (fun b w => b * w) bceT weight)

end VarifocalLoss

namespace BboxLoss

/-- `F.cross_entropy(logits, i)` with the index-validity check the kernel
performs: a class index outside `[0, len)` is an error. -/
def ceChecked {F : Type} (env : Env F) (d : List Rat) (i : Int) : Except Err Rat :=
  if 0 ≤ i ∧ i < (d.length : Int) then Except.ok (env.ce d i) else Except.error Err.indexErr

/-- One side of `_df_loss`: `target_left = target.long()`,
`target_right = target_left + 1`, `weight_left = target_right - target`,
`weight_right = 1 - weight_left`, and the two cross-entropies combined. -/
def dfLossSide {F : Type} (env : Env F) (d : List Rat) (t : Rat) : Except Err Rat := do
  let tl := ratTrunc t
  let ll ← ceChecked env d tl
  let lr ← ceChecked env d (tl + 1)
  Except.ok (ll * (((tl + 1 : Int) : Rat) - t) + lr * (1 - (((tl + 1 : Int) : Rat) - t)))

/-- `_df_loss` on one positive anchor: the per-side values followed by
`.mean(-1, keepdim=True)` over the (four) sides. -/
def dfLossRow {F : Type} (env : Env F) (d4 : List (List Rat)) (t4 : List Rat) : Except Err Rat := do
  let sides ← mapME (fun p => dfLossSide env p.1 p.2) (d4.zip t4)
  checkedDiv sides.sum (sides.length : Rat)

/-- `BboxLoss.forward`.  With no positive anchor both box losses are the
exact zero `pred_dist.sum() * 0`; otherwise the IoU loss rows and (when
distribution regression is on) the distribution-focal rows are weighted by
the per-anchor score sums and normalized by `target_scores_sum` exactly
when that sum exceeds 1. -/
def forward {F : Type} (env : Env F) (regMax : Nat) (useDfl : Bool) (distEps : Rat)
    (predDist : List (List Rat)) (predBboxes : List Box) (anchorPoints : List (Rat × Rat))
    (targetBboxes : List Box) (targetScores : List (List Rat)) (targetScoresSum : Rat)
    (fgMask : List Bool) : Except Err (Rat × Rat) :=
  if 0 < fgMask.count true then do
    let predBboxesPos := maskedSel fgMask predBboxes
    let targetBboxesPos := maskedSel fgMask targetBboxes
    let bboxWeight := maskedSel fgMask (targetScores.map List.sum)
    let iouRows :=
      List.zipWith (fun r w => r * w)
        (List.zipWith (fun pb tb => env.iou pb tb) predBboxesPos targetBboxesPos) bboxWeight
    let lossIou ←
      if 1 < targetScoresSum then checkedDiv iouRows.sum targetScoresSum else pure iouRows.sum
    let lossDfl ←
      if useDfl then do
        let predDistPos := (maskedSel fgMask predDist).map (chunksOf (regMax + 1))
        let targetLtrb :=
          List.zipWith (fun ap tb => bbox2dist ap tb regMax distEps) anchorPoints targetBboxes
        let targetLtrbPos := maskedSel fgMask targetLtrb
        let dflRows ← mapME (fun p => dfLossRow env p.1 p.2) (predDistPos.zip targetLtrbPos)
        let weighted := List.zipWith (fun r w => r * w) dflRows bboxWeight
        if 1 < targetScoresSum then checkedDiv weighted.sum targetScoresSum else pure weighted.sum
      else pure (sum2 predDist * 0)
    Except.ok (lossIou, lossDfl)
  else
    Except.ok (sum2 predDist * 0, sum2 predDist * 0)

end BboxLoss

/-- The `gt_labels = targets[:, :, :1]` slice of the preprocessed targets. -/
def gtLabelsOf (prep : List (List (Rat × Box))) : List (List Rat) :=
  prep.map (List.map Prod.fst)

/-- The `gt_bboxes = targets[:, :, 1:]` slice of the preprocessed targets. -/
def gtBboxesOf (prep : List (List (Rat × Box))) : List (List Box) :=
  prep.map (List.map Prod.snd)

/-- `mask_gt = (gt_bboxes.sum(-1, keepdim=True) > 0).float()`. -/
def maskGtOf (gtBboxes : List (List Box)) : List (List Rat) :=
  gtBboxes.map (List.map boxValidMask)

/-- The classification-loss call shared verbatim by both composers:
relabel background anchors to class `num_classes`, one-hot encode into
`num_classes + 1` columns with the last dropped, and apply the Varifocal
loss with its default `alpha = 0.75`, `gamma = 2.0`. -/
def clsLossRaw {F : Type} (env : Env F) (numClasses : Nat)
    (predScores : Tagged (List (List Rat))) (a : Assignment) : Rat :=
  let labels := relabel numClasses a.fgMask.val a.targetLabels.val
  let oneHot := labels.map (oneHotDrop numClasses)
  VarifocalLoss.forward env predScores a.targetScores oneHot (3 / 4) 2

/-- `target_bboxes /= stride_tensor`, rescaling each target box by its
anchor's stride. -/
def rescaleTargets (strideT : List Rat) (tb : List Box) : Except Err (List Box) :=
  mapME (fun p => Box.cdiv p.1 p.2) (tb.zip strideT)

/-- `torch.linspace(0, reg_max, reg_max + 1)`, the bin-index projection. -/
def projOf (m : Nat) : List Rat := (List.range (m + 1)).map (fun i => (i : Rat))

namespace ComputeLoss

/-- The target grouping loop of `preprocess`: start from
`np.zeros((batch_size, 1, 5))` (one all-zero row per image) and append each
flat record's tail `item[1:]` to the list of its image `int(item[0])`. -/
def fillTargets (bs : Nat) (ts : List GtRow) : List (List Row5) :=
  ts.foldl (fun acc r => acc.set r.img (acc.getD r.img [] ++ [r.row])) (List.replicate bs [Row5.zero])

/-- The per-row tail of `preprocess`: scale the normalized box coordinates
by the original image size and convert center form to corner form. -/
def convRow (s : Rat) (r : Row5) : Rat × Box :=
  (r.cls, xywh2xyxy (r.x * s) (r.y * s) (r.w * s) (r.h * s))

/-- `ComputeLoss.preprocess`: group the flat targets per image, pad every
image to the longest row count with the sentinel row `[-1, 0, 0, 0, 0]`,
drop the seeded leading zero row (`[:, 1:, :]`), then scale and convert
each remaining row. -/
def preprocess (ts : List GtRow) (bs : Nat) (s : Rat) : List (List (Rat × Box)) :=
  let tl := fillTargets bs ts
  let maxLen := (tl.map List.length).foldl max 0
  tl.map (fun l => ((l ++ List.replicate (maxLen - l.length) Row5.sentinel).drop 1).map (convRow s))

/-- `ComputeLoss.bbox_decode`: with distribution regression on, softmax
each side's `reg_max + 1` bins, project onto the bin indices, and decode
through the anchor point; otherwise the raw 4-vector is decoded directly. -/
def bboxDecode {F : Type} (env : Env F) (cfg : Cfg) (anchorPointsS : List (Rat × Rat))
    (predDistri : List (List Rat)) : List Box :=
  let dists :=
    if cfg.useDfl then
      predDistri.map (fun row =>
        (chunksOf (cfg.regMax + 1) row).map (fun side => dotL (env.softmax side) (projOf cfg.regMax)))
    else predDistri
  List.zipWith (fun p d => dist2bbox p d) anchorPointsS dists

/-- Everything the try/except assignment block of `__call__` reads. -/
structure AssignIn where
  anchors : Tagged (List Box)
  nAnchorsList : List Nat
  gtLabels : Tagged (List (List Rat))
  gtBboxes : Tagged (List (List Box))
  maskGt : Tagged (List (List Rat))
  predScores : Tagged (List (List Rat))
  predBboxes : Tagged (List Box)
  anchorPoints : Tagged (List (Rat × Rat))
  strideTensor : Tagged (List Rat)
deriving DecidableEq

/-- `pred_bboxes.detach() * stride_tensor` (detach is the identity on
values). -/
def scaleByStride (b : Tagged (List Box)) (s : Tagged (List Rat)) : Tagged (List Box) :=
  ⟨List.zipWith Box.scale b.val s.val, b.device, b.dt⟩

/-- The primary warmup-assigner argument tuple of `__call__`. -/
def warmupArgsOf (x : AssignIn) : WarmupArgs :=
  ⟨x.anchors, x.nAnchorsList, x.gtLabels, x.gtBboxes, x.maskGt,
   scaleByStride x.predBboxes x.strideTensor⟩

/-- The primary formal-assigner argument tuple of `__call__`. -/
def formalArgsOf (x : AssignIn) : FormalArgs :=
  ⟨x.predScores, scaleByStride x.predBboxes x.strideTensor, x.anchorPoints,
   x.gtLabels, x.gtBboxes, x.maskGt⟩

/-- The warmup-assigner argument tuple of the CPU retry branch: every
tensor moved to host memory in full precision by `.cpu().float()`. -/
def warmupArgsCpu (x : AssignIn) : WarmupArgs :=
  ⟨x.anchors.cpuFloat, x.nAnchorsList, x.gtLabels.cpuFloat, x.gtBboxes.cpuFloat,
   x.maskGt.cpuFloat, scaleByStride x.predBboxes.cpuFloat x.strideTensor.cpuFloat⟩

/-- The formal-assigner argument tuple of the CPU retry branch. -/
def formalArgsCpu (x : AssignIn) : FormalArgs :=
  ⟨x.predScores.cpuFloat, scaleByStride x.predBboxes.cpuFloat x.strideTensor.cpuFloat,
   x.anchorPoints.cpuFloat, x.gtLabels.cpuFloat, x.gtBboxes.cpuFloat, x.maskGt.cpuFloat⟩

/-- The assigner attempt inside `try`: the warmup assigner when
`epoch_num < warmup_epoch`, the formal assigner otherwise. -/
def primaryAttempt {F : Type} (env : Env F) (x : AssignIn) (epoch we : Int) : Except Err Assignment :=
  if epoch < we then env.warmup (warmupArgsOf x) else env.formal (formalArgsOf x)

/-- The assigner attempt inside `except RuntimeError`: the same variant,
selected by the same epoch test, on the host-memory full-precision inputs. -/
def retryAttempt {F : Type} (env : Env F) (x : AssignIn) (epoch we : Int) : Except Err Assignment :=
  if epoch < we then env.warmup (warmupArgsCpu x) else env.formal (formalArgsCpu x)

/-- The whole try/except assignment block of `ComputeLoss.__call__`.  The
boolean records whether `torch.cuda.empty_cache()` ran in the handler.  A
`RuntimeError` from the primary attempt — the CUDA out-of-memory error is
one — is caught and answered by the CPU retry whose four results are moved
back by `.cuda()`; any other failure, and any failure of the retry itself,
propagates. -/
def assign {F : Type} (env : Env F) (x : AssignIn) (epoch we : Int) :
    Bool × Except Err Assignment :=
  match primaryAttempt env x epoch we with
  | Except.ok a => (false, Except.ok a)
  | Except.error (Err.runtimeErr _) =>
      (true, (retryAttempt env x epoch we).map Assignment.allCuda)
  | Except.error e => (false, Except.error e)

/-- Lines 150–190 of `ComputeLoss.__call__`: rescale the target boxes by
the strides, compute the Varifocal classification loss, normalize it by
`target_scores_sum` when that sum exceeds 1, add the box losses, combine
with the configured weights, and append the optional gating
regularization term (mean of the flattened gating decisions times
`lambda_reg`). -/
def lossPhase {F : Type} (env : Env F) (cfg : Cfg) (predScores : Tagged (List (List Rat)))
    (predDistri : List (List Rat)) (predBboxes : List Box) (anchorPointsS : List (Rat × Rat))
    (strideT : List Rat) (a : Assignment) (lambdaReg : Rat)
    (gating : Option (List (List (List Rat)))) : Except Err LossOut := do
  let targetBboxes ← rescaleTargets strideT a.targetBboxes.val
  let lossCls0 := clsLossRaw env cfg.numClasses predScores a
  let s := sum2 a.targetScores.val
  let lossCls ← if 1 < s then checkedDiv lossCls0 s else pure lossCls0
  let r ← BboxLoss.forward env cfg.regMax cfg.useDfl cfg.distEps predDistri predBboxes
      anchorPointsS targetBboxes a.targetScores.val s a.fgMask.val
  let loss := cfg.wClass * lossCls + cfg.wIou * r.1 + cfg.wDfl * r.2
  let comps := [cfg.wIou * r.1, cfg.wDfl * r.2, cfg.wClass * lossCls]
  match gating with
  | none => pure ⟨loss, comps⟩
  | some gd => do
      let b := (gd.headD []).length
      let rows := (List.range b).map (fun i => (gd.map (fun m => m.getD i [])).flatten)
      let means ← mapME (fun r => checkedDiv r.sum (r.length : Rat)) rows
      let gl0 ← checkedDiv means.sum (means.length : Rat)
      let gl := gl0 * lambdaReg
      pure ⟨loss + gl, comps ++ [gl]⟩

/-- The phase of `ComputeLoss.__call__` before the assignment: anchor
generation, target preprocessing, the slices `gt_labels` / `gt_bboxes`,
the validity mask, the stride-normalized anchor points and the decoded
predicted boxes. -/
structure PreOut where
  ao : AnchorsOut
  gtLabels : List (List Rat)
  gtBboxes : List (List Box)
  maskGt : List (List Rat)
  anchorPointsS : List (Rat × Rat)
  predBboxes : List Box
deriving DecidableEq

/-- The pre-assignment phase itself. -/
def preOf {F : Type} (env : Env F) (cfg : Cfg) (feats : List F) (bs : Nat)
    (predDistri : List (List Rat)) (targets : List GtRow) : Except Err PreOut := do
  let ao := env.genAnchors feats cfg.fpnStrides cfg.gridCellSize cfg.gridCellOffset
  let prep := preprocess targets bs cfg.oriImgSize
  let gtLabels := gtLabelsOf prep
  let gtBboxes := gtBboxesOf prep
  let maskGt := maskGtOf gtBboxes
  let anchorPointsS ← mapME (fun p => do
      let px ← checkedDiv p.1.1 p.2
      let py ← checkedDiv p.1.2 p.2
      Except.ok (px, py)) (ao.anchorPoints.zip ao.strideTensor)
  let predBboxes := bboxDecode env cfg anchorPointsS predDistri
  Except.ok ⟨ao, gtLabels, gtBboxes, maskGt, anchorPointsS, predBboxes⟩

/-- Packaging of the pre-phase results into the assignment block's inputs,
tagged with the feature maps' device and the predictions' dtype. -/
def assignInOf (pre : PreOut) (dev : Device) (dtp : Dtype)
    (predScoresV : List (List Rat)) : AssignIn :=
  ⟨⟨pre.ao.anchors, dev, dtp⟩, pre.ao.nAnchorsList, ⟨pre.gtLabels, dev, dtp⟩,
   ⟨pre.gtBboxes, dev, dtp⟩, ⟨pre.maskGt, dev, dtp⟩, ⟨predScoresV, dev, dtp⟩,
   ⟨pre.predBboxes, dev, dtp⟩, ⟨pre.ao.anchorPoints, dev, dtp⟩,
   ⟨pre.ao.strideTensor, dev, dtp⟩⟩

/-- `ComputeLoss.__call__` end to end.  `_stepNum` only schedules the
periodic `torch.cuda.empty_cache()`, which has no value-level effect. -/
def call {F : Type} (env : Env F) (cfg : Cfg) (feats : List F) (dev : Device) (dtp : Dtype)
    (bs : Nat) (predScoresV : List (List Rat)) (predDistri : List (List Rat))
    (targets : List GtRow) (epochNum : Int) (_stepNum : Int) (lambdaReg : Rat)
    (gating : Option (List (List (List Rat)))) : Except Err LossOut := do
  let pre ← preOf env cfg feats bs predDistri targets
  let x := assignInOf pre dev dtp predScoresV
  let r := assign env x epochNum cfg.warmupEpoch
  let a ← r.2
  lossPhase env cfg ⟨predScoresV, dev, dtp⟩ predDistri pre.predBboxes pre.anchorPointsS
    pre.ao.strideTensor a lambdaReg gating

/-- The constructor default `loss_weight` of `ComputeLoss`:
`(class, iou, dfl) = (1.3, 3.5, 0.5)`. -/
def defaultLossWeight : Rat × Rat × Rat := (13 / 10, 7 / 2, 1 / 2)

end ComputeLoss

namespace ComputeLoss1

/-- `ComputeLoss1.preprocess`, a verbatim duplicate of
`ComputeLoss.preprocess` in the source. -/
def preprocess (ts : List GtRow) (bs : Nat) (s : Rat) : List (List (Rat × Box)) :=
  let tl := ComputeLoss.fillTargets bs ts
  let maxLen := (tl.map List.length).foldl max 0
  tl.map (fun l => ((l ++ List.replicate (maxLen - l.length) Row5.sentinel).drop 1).map (ComputeLoss.convRow s))

/-- `ComputeLoss1.bbox_decode`, a verbatim duplicate. -/
def bboxDecode {F : Type} (env : Env F) (cfg : Cfg) (anchorPointsS : List (Rat × Rat))
    (predDistri : List (List Rat)) : List Box :=
  let dists :=
    if cfg.useDfl then
      predDistri.map (fun row =>
        (chunksOf (cfg.regMax + 1) row).map (fun side => dotL (env.softmax side) (projOf cfg.regMax)))
    else predDistri
  List.zipWith (fun p d => dist2bbox p d) anchorPointsS dists

/-- The primary assigner attempt of `ComputeLoss1.__call__`, a verbatim
duplicate of the `ComputeLoss` one. -/
def primaryAttempt {F : Type} (env : Env F) (x : ComputeLoss.AssignIn) (epoch we : Int) :
    Except Err Assignment :=
  if epoch < we then env.warmup (ComputeLoss.warmupArgsOf x)
  else env.formal (ComputeLoss.formalArgsOf x)

/-- The CPU retry attempt of `ComputeLoss1.__call__`, a verbatim duplicate. -/
def retryAttempt {F : Type} (env : Env F) (x : ComputeLoss.AssignIn) (epoch we : Int) :
    Except Err Assignment :=
  if epoch < we then env.warmup (ComputeLoss.warmupArgsCpu x)
  else env.formal (ComputeLoss.formalArgsCpu x)

/-- The try/except assignment block of `ComputeLoss1.__call__`, a verbatim
duplicate of the `ComputeLoss` one. -/
def assign {F : Type} (env : Env F) (x : ComputeLoss.AssignIn) (epoch we : Int) :
    Bool × Except Err Assignment :=
  match primaryAttempt env x epoch we with
  | Except.ok a => (false, Except.ok a)
  | Except.error (Err.runtimeErr _) =>
      (true, (retryAttempt env x epoch we).map Assignment.allCuda)
  | Except.error e => (false, Except.error e)

/-- Lines 411–436 of `ComputeLoss1.__call__`: identical to the
`ComputeLoss` loss phase except that the classification loss is normalized
whenever `target_scores_sum > 0` (not `> 1`) and there is no gating term. -/
def lossPhase {F : Type} (env : Env F) (cfg : Cfg) (predScores : Tagged (List (List Rat)))
    (predDistri : List (List Rat)) (predBboxes : List Box) (anchorPointsS : List (Rat × Rat))
    (strideT : List Rat) (a : Assignment) : Except Err LossOut := do
  let targetBboxes ← rescaleTargets strideT a.targetBboxes.val
  let lossCls0 := clsLossRaw env cfg.numClasses predScores a
  let s := sum2 a.targetScores.val
  let lossCls ← if 0 < s then checkedDiv lossCls0 s else pure lossCls0
  let r ← BboxLoss.forward env cfg.regMax cfg.useDfl cfg.distEps predDistri predBboxes
      anchorPointsS targetBboxes a.targetScores.val s a.fgMask.val
  let loss := cfg.wClass * lossCls + cfg.wIou * r.1 + cfg.wDfl * r.2
  pure ⟨loss, [cfg.wIou * r.1, cfg.wDfl * r.2, cfg.wClass * lossCls]⟩

/-- The pre-assignment phase of `ComputeLoss1.__call__`, a verbatim
duplicate built on its own method copies. -/
def preOf {F : Type} (env : Env F) (cfg : Cfg) (feats : List F) (bs : Nat)
    (predDistri : List (List Rat)) (targets : List GtRow) : Except Err ComputeLoss.PreOut := do
  let ao := env.genAnchors feats cfg.fpnStrides cfg.gridCellSize cfg.gridCellOffset
  let prep := preprocess targets bs cfg.oriImgSize
  let gtLabels := gtLabelsOf prep
  let gtBboxes := gtBboxesOf prep
  let maskGt := maskGtOf gtBboxes
  let anchorPointsS ← mapME (fun p => do
      let px ← checkedDiv p.1.1 p.2
      let py ← checkedDiv p.1.2 p.2
      Except.ok (px, py)) (ao.anchorPoints.zip ao.strideTensor)
  let predBboxes := bboxDecode env cfg anchorPointsS predDistri
  Except.ok ⟨ao, gtLabels, gtBboxes, maskGt, anchorPointsS, predBboxes⟩

/-- `ComputeLoss1.__call__` end to end (no gating side channel). -/
def call {F : Type} (env : Env F) (cfg : Cfg) (feats : List F) (dev : Device) (dtp : Dtype)
    (bs : Nat) (predScoresV : List (List Rat)) (predDistri : List (List Rat))
    (targets : List GtRow) (epochNum : Int) (_stepNum : Int) : Except Err LossOut := do
  let pre ← preOf env cfg feats bs predDistri targets
  let x := ComputeLoss.assignInOf pre dev dtp predScoresV
  let r := assign env x epochNum cfg.warmupEpoch
  let a ← r.2
  lossPhase env cfg ⟨predScoresV, dev, dtp⟩ predDistri pre.predBboxes pre.anchorPointsS
    pre.ao.strideTensor a

/-- The constructor default `loss_weight` of `ComputeLoss1`:
`(class, iou, dfl) = (1.0, 2.5, 0.5)`. -/
def defaultLossWeight : Rat × Rat × Rat := (1, 5 / 2, 1 / 2)

end ComputeLoss1

/-- Specification-side view for the target preprocessor: the ground-truth
rows of image `k`, in their order of appearance in the flat batch. -/
def gtRowsOf (ts : List GtRow) (k : Nat) : List Row5 :=
  (ts.filter (fun r => r.img == k)).map (fun r => r.row)

/-- Specification-side view: `g_k`, the ground-truth count of image `k`. -/
def gtCount (ts : List GtRow) (k : Nat) : Nat :=
  (ts.filter (fun r => r.img == k)).length

/-- Specification-side view: `max_k g_k` over the batch. -/
def maxGtCount (ts : List GtRow) (bs : Nat) : Nat :=
  ((List.range bs).map (gtCount ts)).foldl max 0

/-- A box fixture for concrete instantiations. -/
def boxA : Box := ⟨0, 0, 8, 8⟩

/-- Tag a value as an accelerator tensor in reduced precision. -/
def tgT {α : Type} (v : α) : Tagged α := ⟨v, Device.cuda, Dtype.f16⟩

/-- A concrete assignment fixture: one positive anchor with score sum 2. -/
def sampleAssignment : Assignment :=
  ⟨tgT [0], tgT [boxA], tgT [[2]], tgT [true]⟩

/-- A concrete assignment fixture with no positive anchor. -/
def zeroAssignment : Assignment :=
  ⟨tgT [0], tgT [boxA], tgT [[0]], tgT [false]⟩

/-- A concrete assignment fixture with one positive anchor and score sum
one half (strictly between the two normalization thresholds). -/
def halfAssignment : Assignment :=
  ⟨tgT [0], tgT [⟨0, 0, 1, 1⟩], tgT [[1 / 2]], tgT [true]⟩

/-- A concrete environment with trivial collaborator kernels. -/
def sampleEnv : Env Unit :=
  ⟨fun _ _ _ _ => ⟨[boxA], [(4, 4)], [1], [8]⟩, id, fun _ _ => 1, fun _ _ _ => 1,
   fun _ _ => 1, fun a _ => a * a, fun _ => Except.ok sampleAssignment,
   fun _ => Except.ok sampleAssignment⟩

/-- An environment whose primary (accelerator) warmup attempt raises a
`RuntimeError` that is not the out-of-memory kind, while the host-memory
attempt succeeds. -/
def cexEnv : Env Unit :=
  { sampleEnv with
    warmup := fun wa =>
      if wa.anchors.device = Device.cpu then Except.ok sampleAssignment
      else Except.error (Err.runtimeErr false) }

/-- A concrete input record for the assignment block. -/
def sampleIn : ComputeLoss.AssignIn :=
  ⟨tgT [boxA], [1], tgT [[0]], tgT [[boxA]], tgT [[1]], tgT [[1 / 4]], tgT [boxA],
   tgT [(4, 4)], tgT [8]⟩

/-- A concrete configuration: one class, distribution regression with one
bin step (`reg_max = 1`), unit loss weights. -/
def cfgS : Cfg := ⟨[8], 5, 1 / 2, 1, 640, 4, true, 1, 1 / 100, 1, 1, 1⟩

theorem ebind_ok {ε α β : Type} (a : α) (f : α → Except ε β) :
    (Except.ok a : Except ε α) >>= f = f a := rfl

theorem ebind_err {ε α β : Type} (e : ε) (f : α → Except ε β) :
    (Except.error e : Except ε α) >>= f = Except.error e := rfl

theorem epure {ε α : Type} (a : α) : (pure a : Except ε α) = Except.ok a := rfl

theorem emap_ok {ε α β : Type} (f : α → β) (a : α) :
    (Except.ok a : Except ε α).map f = Except.ok (f a) := rfl

theorem emap_err {ε α β : Type} (f : α → β) (e : ε) :
    (Except.error e : Except ε α).map f = Except.error e := rfl

theorem checkedDiv_ok {b : Rat} (a : Rat) (h : b ≠ 0) :
    checkedDiv a b = Except.ok (a / b) := by
  simp [checkedDiv, h]

theorem cdiv_ok {s : Rat} (b : Box) (h : s ≠ 0) :
    Box.cdiv b s = Except.ok ⟨b.x1 / s, b.y1 / s, b.x2 / s, b.y2 / s⟩ := by
  simp [Box.cdiv, checkedDiv_ok _ h, ebind_ok]

theorem mapME_ok_of_forall {α β : Type} (f : α → Except Err β) :
    ∀ (l : List α), (∀ x ∈ l, ∃ y, f x = Except.ok y) → ∃ ys, mapME f l = Except.ok ys := by
  intro l
  induction l with
  | nil => intro _; exact ⟨[], rfl⟩
  | cons x xs ih =>
      intro h
      obtain ⟨y, hy⟩ := h x (List.mem_cons_self x xs)
      obtain ⟨ys, hys⟩ := ih (fun z hz => h z (List.mem_cons_of_mem x hz))
      exact ⟨y :: ys, by simp [mapME, hy, hys, ebind_ok]⟩

theorem rescaleTargets_ok (strideT : List Rat) (tb : List Box)
    (h : ∀ s ∈ strideT, s ≠ 0) : ∃ tb', rescaleTargets strideT tb = Except.ok tb' := by
  apply mapME_ok_of_forall
  intro p hp
  have hs : p.2 ∈ strideT := (List.of_mem_zip hp).2
  exact ⟨_, cdiv_ok p.1 (h p.2 hs)⟩

theorem ratTrunc_of_nonneg {q : Rat} (h : 0 ≤ q) : ratTrunc q = ⌊q⌋ := by
  simp [ratTrunc, h]

theorem ratTrunc_nonneg_iff {q : Rat} : 0 ≤ ratTrunc q ↔ -1 < q := by
  by_cases h : 0 ≤ q
  · simp only [ratTrunc, if_pos h, Int.floor_nonneg]
    constructor
    · intro _; linarith
    · intro _; exact h
  · push_neg at h
    simp only [ratTrunc, if_neg (not_le.mpr h)]
    have hq : (0 : Rat) ≤ -q := by linarith
    constructor
    · intro hle
      have h0 : ⌊-q⌋ ≤ 0 := by omega
      have h0' : 0 ≤ ⌊-q⌋ := Int.floor_nonneg.mpr hq
      have : ⌊-q⌋ = 0 := le_antisymm h0 h0'
      have := (Int.floor_eq_zero_iff.mp this).2
      linarith
    · intro hgt
      have : ⌊-q⌋ = 0 := by
        rw [Int.floor_eq_zero_iff]
        constructor
        · exact hq
        · linarith
      omega

theorem ratTrunc_lt_iff {q : Rat} {m : Nat} (hm : 1 ≤ m) (h : -1 < q) :
    ratTrunc q < (m : Int) ↔ q < (m : Rat) := by
  by_cases h0 : 0 ≤ q
  · rw [ratTrunc_of_nonneg h0, Int.floor_lt]
    push_cast
    exact Iff.rfl
  · push_neg at h0
    have hfz : ⌊-q⌋ = 0 := by
      rw [Int.floor_eq_zero_iff]
      exact ⟨by linarith, by linarith⟩
    have hmq : (0 : Rat) < m := by
      have : (1 : Rat) ≤ m := by exact_mod_cast hm
      linarith
    simp only [ratTrunc, if_neg (not_le.mpr h0), hfz, neg_zero]
    constructor
    · intro _; linarith
    · intro _
      exact_mod_cast Nat.pos_of_ne_zero (by omega)

/-- C1: in both loss composers, a call with `epoch_num < warmup_epoch`
runs the warmup (ATSS) assigner — on both the primary and the retry path —
and a call with `epoch_num >= warmup_epoch` runs the formal (task-aligned)
assigner; the chosen branch is unaffected by the other assigner, so the
choice depends only on `epoch_num` and the configured `warmup_epoch`. -/
theorem computeLoss_assigner_switch {F : Type} (env : Env F) (x : ComputeLoss.AssignIn)
    (epoch we : Int) :
    (epoch < we →
      ComputeLoss.primaryAttempt env x epoch we = env.warmup (ComputeLoss.warmupArgsOf x) ∧
      ComputeLoss.retryAttempt env x epoch we = env.warmup (ComputeLoss.warmupArgsCpu x) ∧
      ∀ g, ComputeLoss.assign { env with formal := g } x epoch we
            = ComputeLoss.assign env x epoch we) ∧
    (we ≤ epoch →
      ComputeLoss.primaryAttempt env x epoch we = env.formal (ComputeLoss.formalArgsOf x) ∧
      ComputeLoss.retryAttempt env x epoch we = env.formal (ComputeLoss.formalArgsCpu x) ∧
      ∀ w, ComputeLoss.assign { env with warmup := w } x epoch we
            = ComputeLoss.assign env x epoch we) ∧
    ComputeLoss1.assign env x epoch we = ComputeLoss.assign env x epoch we := by
  refine ⟨?_, ?_, rfl⟩
  · intro h
    refine ⟨by simp [ComputeLoss.primaryAttempt, if_pos h], by simp [ComputeLoss.retryAttempt, if_pos h], ?_⟩
    intro g
    simp [ComputeLoss.assign, ComputeLoss.primaryAttempt, ComputeLoss.retryAttempt, if_pos h]
  · intro h
    have h' : ¬ epoch < we := not_lt.mpr h
    refine ⟨by simp [ComputeLoss.primaryAttempt, if_neg h'], by simp [ComputeLoss.retryAttempt, if_neg h'], ?_⟩
    intro w
    simp [ComputeLoss.assign, ComputeLoss.primaryAttempt, ComputeLoss.retryAttempt, if_neg h']

/-- Witness for C1 at concrete epochs 3 and 7 against `warmup_epoch = 4`. -/
theorem computeLoss_assigner_switch_witness :
    ((3 : Int) < 4 ∧
      ComputeLoss.primaryAttempt sampleEnv sampleIn 3 4
        = sampleEnv.warmup (ComputeLoss.warmupArgsOf sampleIn)) ∧
    ((4 : Int) ≤ 7 ∧
      ComputeLoss.primaryAttempt sampleEnv sampleIn 7 4
        = sampleEnv.formal (ComputeLoss.formalArgsOf sampleIn)) :=
  ⟨⟨by norm_num, ((computeLoss_assigner_switch sampleEnv sampleIn 3 4).1 (by norm_num)).1⟩,
   ⟨by norm_num, ((computeLoss_assigner_switch sampleEnv sampleIn 7 4).2.1 (by norm_num)).1⟩⟩

/-- C2 counterexample: the handler is `except RuntimeError`, so a
`RuntimeError` that is not the out-of-memory kind is also caught and
answered by the CPU retry instead of propagating — refuting the claim
that the catch-and-retry happens only for the out-of-memory error kind. -/
theorem computeLoss_retry_catches_non_oom :
    ComputeLoss.primaryAttempt cexEnv sampleIn 0 4 = Except.error (Err.runtimeErr false) ∧
    ComputeLoss.assign cexEnv sampleIn 0 4
      = (true, Except.ok (Assignment.allCuda sampleAssignment)) := by
  have h1 : ComputeLoss.primaryAttempt cexEnv sampleIn 0 4
      = Except.error (Err.runtimeErr false) := by
    norm_num [ComputeLoss.primaryAttempt, cexEnv, sampleEnv, sampleIn,
      ComputeLoss.warmupArgsOf, tgT]
    intro h
    exact absurd h (by decide)
  refine ⟨h1, ?_⟩
  have h2 : ComputeLoss.retryAttempt cexEnv sampleIn 0 4 = Except.ok sampleAssignment := by
    norm_num [ComputeLoss.retryAttempt, cexEnv, sampleEnv, sampleIn,
      ComputeLoss.warmupArgsCpu, Tagged.cpuFloat, tgT]
  simp [ComputeLoss.assign, h1, h2, emap_ok]

/-- C2 (amended): if the primary assignment attempt succeeds there is no
retry and no cache release; if it raises any `RuntimeError` (the
out-of-memory error being one instance) the composer releases the
accelerator cache, re-runs the same assigner variant on the inputs moved
to host memory in full precision, moves the four results back to the
accelerator, and returns them as a success; a failure of the retry itself
propagates unchanged (fatal, no second retry); failures of other kinds
propagate without any retry.  `ComputeLoss1` behaves identically. -/
theorem computeLoss_oom_retry_protocol {F : Type} (env : Env F) (x : ComputeLoss.AssignIn)
    (epoch we : Int) :
    (∀ a, ComputeLoss.primaryAttempt env x epoch we = Except.ok a →
        ComputeLoss.assign env x epoch we = (false, Except.ok a)) ∧
    (∀ oom, ComputeLoss.primaryAttempt env x epoch we = Except.error (Err.runtimeErr oom) →
        ComputeLoss.assign env x epoch we
          = (true, (ComputeLoss.retryAttempt env x epoch we).map Assignment.allCuda) ∧
        (∀ r, ComputeLoss.retryAttempt env x epoch we = Except.ok r →
            ComputeLoss.assign env x epoch we = (true, Except.ok (Assignment.allCuda r))) ∧
        (∀ e, ComputeLoss.retryAttempt env x epoch we = Except.error e →
            ComputeLoss.assign env x epoch we = (true, Except.error e))) ∧
    (ComputeLoss.primaryAttempt env x epoch we = Except.error Err.indexErr →
        ComputeLoss.assign env x epoch we = (false, Except.error Err.indexErr)) ∧
    (ComputeLoss.primaryAttempt env x epoch we = Except.error Err.nanPoison →
        ComputeLoss.assign env x epoch we = (false, Except.error Err.nanPoison)) ∧
    (epoch < we →
      ComputeLoss.retryAttempt env x epoch we = env.warmup (ComputeLoss.warmupArgsCpu x)) ∧
    (we ≤ epoch →
      ComputeLoss.retryAttempt env x epoch we = env.formal (ComputeLoss.formalArgsCpu x)) ∧
    (∀ (α : Type) (t : Tagged α),
      t.cpuFloat.device = Device.cpu ∧ t.cpuFloat.dt = Dtype.f32 ∧ t.cpuFloat.val = t.val ∧
      t.toCuda.device = Device.cuda ∧ t.toCuda.val = t.val) ∧
    (∀ e' w', ComputeLoss1.assign env x e' w' = ComputeLoss.assign env x e' w') := by
  refine ⟨?_, ?_, ?_, ?_, ?_, ?_, ?_, ?_⟩
  · intro a h; simp [ComputeLoss.assign, h]
  · intro oom h
    refine ⟨by simp [ComputeLoss.assign, h], ?_, ?_⟩
    · intro r hr; simp [ComputeLoss.assign, h, hr, emap_ok]
    · intro e he; simp [ComputeLoss.assign, h, he, emap_err]
  · intro h; simp [ComputeLoss.assign, h]
  · intro h; simp [ComputeLoss.assign, h]
  · intro h; simp [ComputeLoss.retryAttempt, if_pos h]
  · intro h; simp [ComputeLoss.retryAttempt, if_neg (not_lt.mpr h)]
  · intro α t; exact ⟨rfl, rfl, rfl, rfl, rfl⟩
  · intro e' w'; rfl

/-- Witness for C2 at concrete inputs: a successful primary attempt is
returned untouched, and a caught `RuntimeError` leads to the mapped CPU
retry result. -/
theorem computeLoss_oom_retry_protocol_witness :
    ComputeLoss.primaryAttempt sampleEnv sampleIn 3 4 = Except.ok sampleAssignment ∧
    ComputeLoss.assign sampleEnv sampleIn 3 4 = (false, Except.ok sampleAssignment) ∧
    ComputeLoss.assign cexEnv sampleIn 3 4
      = (true, (ComputeLoss.retryAttempt cexEnv sampleIn 3 4).map Assignment.allCuda) := by
  have h1 : ComputeLoss.primaryAttempt sampleEnv sampleIn 3 4 = Except.ok sampleAssignment := by
    norm_num [ComputeLoss.primaryAttempt, sampleEnv, sampleIn, ComputeLoss.warmupArgsOf, tgT]
  have h2 : ComputeLoss.primaryAttempt cexEnv sampleIn 3 4
      = Except.error (Err.runtimeErr false) := by
    norm_num [ComputeLoss.primaryAttempt, cexEnv, sampleEnv, sampleIn,
      ComputeLoss.warmupArgsOf, tgT]
    intro h
    exact absurd h (by decide)
  exact ⟨h1, (computeLoss_oom_retry_protocol sampleEnv sampleIn 3 4).1 sampleAssignment h1,
    ((computeLoss_oom_retry_protocol cexEnv sampleIn 3 4).2.1 false h2).1⟩

/-- C3: in the class-loss normalization step, `ComputeLoss` divides the
Varifocal loss by `target_scores_sum` exactly when that sum exceeds 1 and
`ComputeLoss1` exactly when it exceeds 0; otherwise the raw loss is used
unchanged.  The division only ever runs under its guard, so the phase
never divides by an exactly zero sum (the result stays `.ok`). -/
theorem classification_normalization_thresholds {F : Type} (env : Env F) (cfg : Cfg)
    (predScores : Tagged (List (List Rat))) (predDistri : List (List Rat))
    (predBboxes : List Box) (anchorPointsS : List (Rat × Rat)) (strideT : List Rat)
    (a : Assignment) (lambdaReg : Rat) (tb : List Box) (li ld : Rat)
    (hT : rescaleTargets strideT a.targetBboxes.val = Except.ok tb)
    (hB : BboxLoss.forward env cfg.regMax cfg.useDfl cfg.distEps predDistri predBboxes
        anchorPointsS tb a.targetScores.val (sum2 a.targetScores.val) a.fgMask.val
        = Except.ok (li, ld)) :
    (ComputeLoss.lossPhase env cfg predScores predDistri predBboxes anchorPointsS strideT a
        lambdaReg none
      = Except.ok
          ⟨cfg.wClass * (if 1 < sum2 a.targetScores.val then
              clsLossRaw env cfg.numClasses predScores a / sum2 a.targetScores.val
            else clsLossRaw env cfg.numClasses predScores a) + cfg.wIou * li + cfg.wDfl * ld,
           [cfg.wIou * li, cfg.wDfl * ld,
            cfg.wClass * (if 1 < sum2 a.targetScores.val then
              clsLossRaw env cfg.numClasses predScores a / sum2 a.targetScores.val
            else clsLossRaw env cfg.numClasses predScores a)]⟩) ∧
    (ComputeLoss1.lossPhase env cfg predScores predDistri predBboxes anchorPointsS strideT a
      = Except.ok
          ⟨cfg.wClass * (if 0 < sum2 a.targetScores.val then
              clsLossRaw env cfg.numClasses predScores a / sum2 a.targetScores.val
            else clsLossRaw env cfg.numClasses predScores a) + cfg.wIou * li + cfg.wDfl * ld,
           [cfg.wIou * li, cfg.wDfl * ld,
            cfg.wClass * (if 0 < sum2 a.targetScores.val then
              clsLossRaw env cfg.numClasses predScores a / sum2 a.targetScores.val
            else clsLossRaw env cfg.numClasses predScores a)]⟩) := by
  constructor
  · by_cases h1 : 1 < sum2 a.targetScores.val
    · have hs0 : sum2 a.targetScores.val ≠ 0 := by
        intro hc; rw [hc] at h1; exact absurd h1 (by norm_num)
      simp [ComputeLoss.lossPhase, hT, hB, ebind_ok, epure, if_pos h1, checkedDiv_ok _ hs0]
    · simp [ComputeLoss.lossPhase, hT, hB, ebind_ok, epure, if_neg h1]
  · by_cases h0 : 0 < sum2 a.targetScores.val
    · have hs0 : sum2 a.targetScores.val ≠ 0 := ne_of_gt h0
      simp [ComputeLoss1.lossPhase, hT, hB, ebind_ok, epure, if_pos h0, checkedDiv_ok _ hs0]
    · simp [ComputeLoss1.lossPhase, hT, hB, ebind_ok, epure, if_neg h0]

/-- Witness for C3 on a concrete run: score sum 2 exceeds both thresholds,
so the classification loss 2 is divided down to 1 in `ComputeLoss`. -/
theorem classification_normalization_thresholds_witness :
    rescaleTargets [8] sampleAssignment.targetBboxes.val = Except.ok [⟨0, 0, 1, 1⟩] ∧
    ComputeLoss.lossPhase sampleEnv cfgS (tgT [[1 / 4]]) [[0, 0, 0, 0, 0, 0, 0, 0]] [boxA]
      [(1 / 2, 1 / 2)] [8] sampleAssignment 0 none = Except.ok ⟨3, [1, 1, 1]⟩ := by
  have hT : rescaleTargets [8] sampleAssignment.targetBboxes.val = Except.ok [⟨0, 0, 1, 1⟩] := by
    norm_num [rescaleTargets, mapME, Box.cdiv, checkedDiv, ebind_ok, epure, sampleAssignment,
      tgT, boxA]
  have hs : sum2 sampleAssignment.targetScores.val = 2 := by
    norm_num [sum2, sampleAssignment, tgT]
  have hB : BboxLoss.forward sampleEnv cfgS.regMax cfgS.useDfl cfgS.distEps
      [[0, 0, 0, 0, 0, 0, 0, 0]] [boxA] [(1 / 2, 1 / 2)] [⟨0, 0, 1, 1⟩]
      sampleAssignment.targetScores.val (sum2 sampleAssignment.targetScores.val)
      sampleAssignment.fgMask.val = Except.ok (1, 1) := by
    rw [hs]
    norm_num [BboxLoss.forward, maskedSel, sampleAssignment, tgT, boxA, cfgS, sum2,
      BboxLoss.dfLossRow, BboxLoss.dfLossSide, BboxLoss.ceChecked, mapME, chunksOf, chunksOfAux,
      bbox2dist, clampTo, ratTrunc, checkedDiv, ebind_ok, epure, sampleEnv]
    simp [ebind_ok, Prod.ext_iff]
  have hraw : clsLossRaw sampleEnv cfgS.numClasses (tgT [[1 / 4]]) sampleAssignment = 2 := by
    norm_num [clsLossRaw, relabel, oneHotDrop, ratTrunc, VarifocalLoss.forward, zip3W2d, zip3W,
      zipW2d, sum2, sampleEnv, sampleAssignment, tgT, cfgS, Tagged.toFloat32, promoteDt,
      List.range_succ]
  have hmain := (classification_normalization_thresholds sampleEnv cfgS (tgT [[1 / 4]])
    [[0, 0, 0, 0, 0, 0, 0, 0]] [boxA] [(1 / 2, 1 / 2)] [8] sampleAssignment 0 [⟨0, 0, 1, 1⟩]
    1 1 hT hB).1
  refine ⟨hT, ?_⟩
  rw [hmain, hs, hraw]
  norm_num [cfgS]

/-- C4: with zero positive anchors (`fg_mask` summing to 0)
`BboxLoss.forward` returns exactly `(0, 0)` without any division, and the
loss phase of either composer completes without error (finite total, no
division by zero) with zero iou and dfl components — the total is just the
weighted classification term. -/
theorem zero_positive_batch_losses {F : Type} (env : Env F) (cfg : Cfg)
    (predScores : Tagged (List (List Rat))) (predDistri : List (List Rat))
    (predBboxes : List Box) (anchorPointsS : List (Rat × Rat)) (strideT : List Rat)
    (a : Assignment) (lambdaReg : Rat)
    (regMax : Nat) (useDfl : Bool) (distEps : Rat) (predDist' : List (List Rat))
    (predBboxes' : List Box) (anchorPoints' : List (Rat × Rat)) (targetBboxes' : List Box)
    (targetScores' : List (List Rat)) (tss : Rat) (fgMask' : List Bool)
    (hfg' : fgMask'.count true = 0)
    (hst : ∀ s ∈ strideT, s ≠ 0) (hfg : a.fgMask.val.count true = 0) :
    BboxLoss.forward env regMax useDfl distEps predDist' predBboxes' anchorPoints'
      targetBboxes' targetScores' tss fgMask' = Except.ok (0, 0) ∧
    (ComputeLoss.lossPhase env cfg predScores predDistri predBboxes anchorPointsS strideT a
        lambdaReg none
      = Except.ok
          ⟨cfg.wClass * (if 1 < sum2 a.targetScores.val then
              clsLossRaw env cfg.numClasses predScores a / sum2 a.targetScores.val
            else clsLossRaw env cfg.numClasses predScores a),
           [0, 0,
            cfg.wClass * (if 1 < sum2 a.targetScores.val then
              clsLossRaw env cfg.numClasses predScores a / sum2 a.targetScores.val
            else clsLossRaw env cfg.numClasses predScores a)]⟩) ∧
    (ComputeLoss1.lossPhase env cfg predScores predDistri predBboxes anchorPointsS strideT a
      = Except.ok
          ⟨cfg.wClass * (if 0 < sum2 a.targetScores.val then
              clsLossRaw env cfg.numClasses predScores a / sum2 a.targetScores.val
            else clsLossRaw env cfg.numClasses predScores a),
           [0, 0,
            cfg.wClass * (if 0 < sum2 a.targetScores.val then
              clsLossRaw env cfg.numClasses predScores a / sum2 a.targetScores.val
            else clsLossRaw env cfg.numClasses predScores a)]⟩) := by
  have hfwd : ∀ (rm : Nat) (ud : Bool) (de : Rat) (pd : List (List Rat)) (pb : List Box)
      (ap : List (Rat × Rat)) (tb : List Box) (ts : List (List Rat)) (ss : Rat)
      (fg : List Bool), fg.count true = 0 →
      BboxLoss.forward env rm ud de pd pb ap tb ts ss fg = Except.ok (0, 0) := by
    intro rm ud de pd pb ap tb ts ss fg h
    simp [BboxLoss.forward, h, mul_zero]
  obtain ⟨tb, htb⟩ := rescaleTargets_ok strideT a.targetBboxes.val hst
  refine ⟨hfwd _ _ _ _ _ _ _ _ _ _ hfg', ?_, ?_⟩
  · by_cases h1 : 1 < sum2 a.targetScores.val
    · have hs0 : sum2 a.targetScores.val ≠ 0 := by
        intro hc; rw [hc] at h1; exact absurd h1 (by norm_num)
      simp [ComputeLoss.lossPhase, htb, hfwd _ _ _ _ _ _ _ _ _ _ hfg, ebind_ok, epure,
        if_pos h1, checkedDiv_ok _ hs0, mul_zero, add_zero]
    · simp [ComputeLoss.lossPhase, htb, hfwd _ _ _ _ _ _ _ _ _ _ hfg, ebind_ok, epure,
        if_neg h1, mul_zero, add_zero]
  · by_cases h0 : 0 < sum2 a.targetScores.val
    · have hs0 : sum2 a.targetScores.val ≠ 0 := ne_of_gt h0
      simp [ComputeLoss1.lossPhase, htb, hfwd _ _ _ _ _ _ _ _ _ _ hfg, ebind_ok, epure,
        if_pos h0, checkedDiv_ok _ hs0, mul_zero, add_zero]
    · simp [ComputeLoss1.lossPhase, htb, hfwd _ _ _ _ _ _ _ _ _ _ hfg, ebind_ok, epure,
        if_neg h0, mul_zero, add_zero]

/-- Witness for C4 on a concrete run with no positive anchor: box losses
are exactly zero and the total is the (unnormalized) classification term. -/
theorem zero_positive_batch_losses_witness :
    zeroAssignment.fgMask.val.count true = 0 ∧ ((8 : Rat) ≠ 0) ∧
    BboxLoss.forward sampleEnv 1 true (1 / 100) [[0, 0, 0, 0, 0, 0, 0, 0]] [boxA]
      [(1 / 2, 1 / 2)] [boxA] [[0]] 0 [false] = Except.ok (0, 0) ∧
    ComputeLoss.lossPhase sampleEnv cfgS (tgT [[1 / 4]]) [[0, 0, 0, 0, 0, 0, 0, 0]] [boxA]
      [(1 / 2, 1 / 2)] [8] zeroAssignment 0 none = Except.ok ⟨3 / 64, [0, 0, 3 / 64]⟩ := by
  have hcount : zeroAssignment.fgMask.val.count true = 0 := by
    simp [zeroAssignment, tgT]
  have h8 : ∀ s ∈ ([8] : List Rat), s ≠ 0 := by
    intro s hs
    simp only [List.mem_singleton] at hs
    rw [hs]; norm_num
  have hfgz : ([false] : List Bool).count true = 0 := by simp
  have hmain := zero_positive_batch_losses sampleEnv cfgS (tgT [[1 / 4]])
    [[0, 0, 0, 0, 0, 0, 0, 0]] [boxA] [(1 / 2, 1 / 2)] [8] zeroAssignment 0
    1 true (1 / 100) [[0, 0, 0, 0, 0, 0, 0, 0]] [boxA] [(1 / 2, 1 / 2)] [boxA] [[0]] 0 [false]
    hfgz h8 hcount
  have hs0 : sum2 zeroAssignment.targetScores.val = 0 := by
    norm_num [sum2, zeroAssignment, tgT]
  have hraw : clsLossRaw sampleEnv cfgS.numClasses (tgT [[1 / 4]]) zeroAssignment = 3 / 64 := by
    norm_num [clsLossRaw, relabel, oneHotDrop, ratTrunc, VarifocalLoss.forward, zip3W2d, zip3W,
      zipW2d, sum2, sampleEnv, zeroAssignment, tgT, cfgS, Tagged.toFloat32, promoteDt,
      List.range_succ]
  refine ⟨hcount, by norm_num, hmain.1, ?_⟩
  rw [hmain.2.1, hs0, hraw]
  norm_num [cfgS]

/-- C9: a ground-truth row gets `mask_gt = 1` exactly when the sum of its
converted corners is strictly positive and `mask_gt = 0` otherwise; the
mask is computed from the box slice only, so it is invariant under any
rewrite of the class column; the sentinel row `[-1, 0, 0, 0, 0]` converts
to `(-1, (0,0,0,0))` whose mask is 0. -/
theorem mask_gt_box_sum_criterion :
    (∀ b : Box, (boxValidMask b = 1 ↔ 0 < b.x1 + b.y1 + b.x2 + b.y2) ∧
      (boxValidMask b = 0 ↔ ¬0 < b.x1 + b.y1 + b.x2 + b.y2)) ∧
    (∀ (rows : List (List (Rat × Box))) (f : Rat → Rat),
      maskGtOf (gtBboxesOf (rows.map (List.map (fun p => (f p.1, p.2)))))
        = maskGtOf (gtBboxesOf rows)) ∧
    (∀ s : Rat, ComputeLoss.convRow s Row5.sentinel = (-1, ⟨0, 0, 0, 0⟩)) ∧
    boxValidMask ⟨0, 0, 0, 0⟩ = 0 := by
  refine ⟨?_, ?_, ?_, by norm_num [boxValidMask, Box.coordSum]⟩
  · intro b
    constructor
    · constructor
      · intro h
        by_contra hc
        simp [boxValidMask, Box.coordSum, hc] at h
      · intro h; simp [boxValidMask, Box.coordSum, h]
    · constructor
      · intro h
        intro hc
        simp [boxValidMask, Box.coordSum, hc] at h
      · intro h; simp [boxValidMask, Box.coordSum, h]
  · intro rows f
    simp [maskGtOf, gtBboxesOf, List.map_map, Function.comp]
  · intro s
    simp [ComputeLoss.convRow, Row5.sentinel, xywh2xyxy]

theorem zip_fusion_1d (bf : Rat → Rat → Rat) (wf : Rat → Rat → Rat → Rat) :
    ∀ (P G L : List Rat),
      List.zipWith (fun b w => b * w) (List.zipWith bf P G) (zip3W wf P G L)
        = zip3W (fun p g l => wf p g l * bf p g) P G L := by
  intro P
  induction P with
  | nil => intro G L; simp [zip3W]
  | cons p ps ih =>
      intro G L
      cases G with
      | nil => simp [zip3W]
      | cons g gs =>
          cases L with
          | nil => simp [zip3W]
          | cons l ls =>
              simp [zip3W, ih]
              ring

theorem zip_fusion_2d (bf : Rat → Rat → Rat) (wf : Rat → Rat → Rat → Rat) :
    ∀ (P G L : List (List Rat)),
      zipW2d (fun b w => b * w) (zipW2d bf P G) (zip3W2d wf P G L)
        = zip3W2d (fun p g l => wf p g l * bf p g) P G L := by
  intro P
  induction P with
  | nil => intro G L; simp [zipW2d, zip3W2d, zip3W]
  | cons p ps ih =>
      intro G L
      cases G with
      | nil => simp [zipW2d, zip3W2d, zip3W]
      | cons g gs =>
          cases L with
          | nil => simp [zipW2d, zip3W2d, zip3W]
          | cons l ls =>
              simpa [zipW2d, zip3W2d, zip3W, zip_fusion_1d] using ih gs ls

/-- C6: the Varifocal classification loss equals the sum over all anchors
and classes of `weight * bce(pred, target)` with
`weight = alpha * pred^gamma * (1 - one_hot) + target * one_hot`, and the
binary cross-entropy kernel is invoked at full (float32) precision
whatever the ambient dtype of the two score tensors is. -/
theorem varifocal_formula_full_precision {F : Type} (env : Env F) (P G L : List (List Rat))
    (devP devG : Device) (dtP dtG : Dtype) (alpha gamma : Rat) :
    VarifocalLoss.forward env ⟨P, devP, dtP⟩ ⟨G, devG, dtG⟩ L alpha gamma
      = sum2 (zip3W2d (fun p g l =>
          (alpha * env.rpow p gamma * (1 - l) + g * l) * env.bce Dtype.f32 p g) P G L) := by
  simp only [VarifocalLoss.forward, Tagged.toFloat32, promoteDt]
  rw [zip_fusion_2d]

theorem dfLossSide_ok_iff {F : Type} (env : Env F) (d : List Rat) (t : Rat) :
    (∃ v, BboxLoss.dfLossSide env d t = Except.ok v) ↔
    (0 ≤ ratTrunc t ∧ ratTrunc t + 1 < (d.length : Int)) := by
  constructor
  · rintro ⟨v, hv⟩
    by_cases hAB : 0 ≤ ratTrunc t ∧ ratTrunc t < (d.length : Int)
    · by_cases hCD : 0 ≤ ratTrunc t + 1 ∧ ratTrunc t + 1 < (d.length : Int)
      · exact ⟨hAB.1, hCD.2⟩
      · simp [BboxLoss.dfLossSide, BboxLoss.ceChecked, hAB, hCD, ebind_ok, ebind_err] at hv
    · simp [BboxLoss.dfLossSide, BboxLoss.ceChecked, hAB, ebind_err] at hv
  · rintro ⟨hA, hD⟩
    have hB : ratTrunc t < (d.length : Int) := by omega
    have hC : 0 ≤ ratTrunc t + 1 := by omega
    refine ⟨env.ce d (ratTrunc t) * (((ratTrunc t + 1 : Int) : Rat) - t)
      + env.ce d (ratTrunc t + 1) * (1 - (((ratTrunc t + 1 : Int) : Rat) - t)), ?_⟩
    simp [BboxLoss.dfLossSide, BboxLoss.ceChecked, hA, hB, hC, hD, ebind_ok]

theorem clampTo_bounds {lo hi : Rat} (x : Rat) (h : lo ≤ hi) :
    lo ≤ clampTo lo hi x ∧ clampTo lo hi x ≤ hi := by
  unfold clampTo
  constructor
  · exact le_min (le_max_right x lo) h
  · exact min_le_right _ _

/-- C10 (amended): both cross-entropy class indices of `_df_loss` stay
within the `reg_max + 1` bins exactly when `-1 < t < reg_max` — the code
truncates the target toward zero, so targets in `(-1, 0)` are accepted
too; in particular `0 ≤ t < reg_max` suffices, and the clamp of
`bbox2dist` to `[0, reg_max - eps]` establishes that precondition for
every distance it produces. -/
theorem df_loss_index_bounds {F : Type} (env : Env F) (m : Nat) (d : List Rat) (t : Rat)
    (p : Rat × Rat) (b : Box) (eps : Rat)
    (hm : 1 ≤ m) (hd : d.length = m + 1) (he0 : 0 < eps) (he1 : eps ≤ m) :
    ((∃ v, BboxLoss.dfLossSide env d t = Except.ok v) ↔ (-1 < t ∧ t < m)) ∧
    (∀ x ∈ bbox2dist p b m eps, 0 ≤ x ∧ x < m) ∧
    ((0 ≤ t ∧ t < m) → ∃ v, BboxLoss.dfLossSide env d t = Except.ok v) := by
  have hclamp : ∀ y : Rat, 0 ≤ clampTo 0 ((m : Rat) - eps) y ∧ clampTo 0 ((m : Rat) - eps) y < m := by
    intro y
    have hle : (0 : Rat) ≤ (m : Rat) - eps := by
      have : (eps : Rat) ≤ (m : Rat) := he1
      linarith
    obtain ⟨h1, h2⟩ := clampTo_bounds y hle
    exact ⟨h1, by linarith⟩
  have hmain : (∃ v, BboxLoss.dfLossSide env d t = Except.ok v) ↔ (-1 < t ∧ t < m) := by
    rw [dfLossSide_ok_iff, hd]
    constructor
    · rintro ⟨hA, hD⟩
      have ht1 : -1 < t := ratTrunc_nonneg_iff.mp hA
      have htm : ratTrunc t < (m : Int) := by push_cast at hD; omega
      exact ⟨ht1, (ratTrunc_lt_iff hm ht1).mp htm⟩
    · rintro ⟨ht1, htm⟩
      refine ⟨ratTrunc_nonneg_iff.mpr ht1, ?_⟩
      have := (ratTrunc_lt_iff hm ht1).mpr htm
      push_cast
      omega
  refine ⟨hmain, ?_, ?_⟩
  · intro x hx
    simp only [bbox2dist, List.mem_cons, List.not_mem_nil, or_false] at hx
    rcases hx with h | h | h | h <;> (rw [h]; exact hclamp _)
  · rintro ⟨h0, hm'⟩
    exact hmain.mpr ⟨by linarith, hm'⟩

/-- Witness for C10 at `reg_max = 16`, a 17-bin row and target `3/2`. -/
theorem df_loss_index_bounds_witness :
    (1 ≤ 16 ∧ (List.replicate 17 (0 : Rat)).length = 16 + 1 ∧ (0 : Rat) < 1 / 100 ∧
      (1 / 100 : Rat) ≤ 16) ∧
    ((∃ v, BboxLoss.dfLossSide sampleEnv (List.replicate 17 (0 : Rat)) (3 / 2) = Except.ok v) ↔
      (-1 < (3 / 2 : Rat) ∧ (3 / 2 : Rat) < 16)) := by
  refine ⟨⟨by norm_num, by simp, by norm_num, by norm_num⟩, ?_⟩
  exact (df_loss_index_bounds sampleEnv 16 (List.replicate 17 (0 : Rat)) (3 / 2) (4, 4) boxA
    (1 / 100) (by norm_num) (by simp) (by norm_num) (by norm_num)).1

/-- C10 counterexample: at target `t = -1/2` (so `0 ≤ t` fails) the
`_df_loss` side computation is still well defined — the code truncates
toward zero, giving the valid indices 0 and 1 — refuting the claim that
well-definedness holds only under `0 ≤ t < reg_max`. -/
theorem df_loss_defined_at_negative_target :
    BboxLoss.dfLossSide sampleEnv (List.replicate 17 0) (-1 / 2) = Except.ok 1 ∧
    ¬(0 ≤ (-1 / 2 : Rat)) := by
  constructor
  · norm_num [BboxLoss.dfLossSide, BboxLoss.ceChecked, ratTrunc, ebind_ok, sampleEnv]
  · norm_num

theorem fill_len (ts : List GtRow) (acc : List (List Row5)) :
    (ts.foldl (fun a r => a.set r.img (a.getD r.img [] ++ [r.row])) acc).length = acc.length := by
  induction ts generalizing acc with
  | nil => rfl
  | cons r ts ih => rw [List.foldl_cons, ih, List.length_set]

theorem fill_getD (ts : List GtRow) (acc : List (List Row5)) (k : Nat)
    (hk : k < acc.length) (himg : ∀ r ∈ ts, r.img < acc.length) :
    (ts.foldl (fun a r => a.set r.img (a.getD r.img [] ++ [r.row])) acc).getD k []
      = acc.getD k [] ++ (ts.filter (fun r => r.img == k)).map (fun r => r.row) := by
  induction ts generalizing acc with
  | nil => simp
  | cons r ts ih =>
      rw [List.foldl_cons]
      have hrl : r.img < acc.length := himg r (List.mem_cons_self r ts)
      have hlen : (acc.set r.img (acc.getD r.img [] ++ [r.row])).length = acc.length :=
        List.length_set acc r.img _
      rw [ih _ (by rw [hlen]; exact hk)
        (fun x hx => by rw [hlen]; exact himg x (List.mem_cons_of_mem r hx))]
      by_cases h : r.img = k
      · subst h
        rw [List.filter_cons]
        simp only [beq_self_eq_true, if_pos, List.map_cons]
        rw [List.getD_eq_getElem?_getD, List.getElem?_set]
        simp [hrl, List.getD_eq_getElem?_getD, List.append_assoc]
      · rw [List.filter_cons]
        have hbeq : (r.img == k) = false := by simp [h]
        rw [hbeq]
        simp only [Bool.false_eq_true, if_neg, not_false_iff]
        rw [List.getD_eq_getElem?_getD, List.getElem?_set]
        simp [h, List.getD_eq_getElem?_getD]

theorem getD_map_range {α : Type} (b : Nat) (f : Nat → α) (k : Nat) (hk : k < b) (d : α) :
    ((List.range b).map f).getD k d = f k := by
  rw [List.getD_eq_getElem?_getD]
  simp [List.getElem?_map, List.getElem?_range, hk]

theorem fillTargets_eq (ts : List GtRow) (bs : Nat) (himg : ∀ r ∈ ts, r.img < bs) :
    ComputeLoss.fillTargets bs ts
      = (List.range bs).map (fun k => Row5.zero :: gtRowsOf ts k) := by
  have hbase : (List.replicate bs ([Row5.zero] : List Row5)).length = bs := by simp
  apply List.ext_getElem
  · rw [ComputeLoss.fillTargets, fill_len, hbase]
    simp
  · intro i h1 h2
    have hi : i < bs := by
      rw [ComputeLoss.fillTargets, fill_len, hbase] at h1
      exact h1
    have hL : (ComputeLoss.fillTargets bs ts)[i] = (ComputeLoss.fillTargets bs ts).getD i [] :=
      (List.getD_eq_getElem _ _ h1).symm
    have hR : ((List.range bs).map (fun k => Row5.zero :: gtRowsOf ts k))[i]
        = ((List.range bs).map (fun k => Row5.zero :: gtRowsOf ts k)).getD i [] :=
      (List.getD_eq_getElem _ _ h2).symm
    rw [hL, hR, getD_map_range bs _ i hi]
    rw [ComputeLoss.fillTargets, fill_getD ts _ i (by rw [hbase]; exact hi)
      (fun x hx => by rw [hbase]; exact himg x hx)]
    have : (List.replicate bs ([Row5.zero] : List Row5)).getD i [] = [Row5.zero] := by
      rw [List.getD_eq_getElem?_getD]
      simp [List.getElem?_replicate, hi]
    rw [this]
    simp [gtRowsOf]

theorem foldl_max_acc_le (l : List Nat) : ∀ a b : Nat, a ≤ b → a ≤ l.foldl max b := by
  induction l with
  | nil => intro a b h; simpa using h
  | cons x xs ih => intro a b h; exact ih a (max b x) (le_trans h (le_max_left b x))

theorem mem_le_foldl_max (l : List Nat) : ∀ x ∈ l, ∀ a : Nat, x ≤ l.foldl max a := by
  induction l with
  | nil => intro x hx; cases hx
  | cons y ys ih =>
      intro x hx a
      rcases List.mem_cons.mp hx with h | h
      · subst h
        exact foldl_max_acc_le ys x (max a x) (le_max_right a x)
      · exact ih x h (max a y)

theorem foldl_max_map_succ (l : List Nat) : ∀ a : Nat,
    (l.map (fun n => n + 1)).foldl max (a + 1) = (l.foldl max a) + 1 := by
  induction l with
  | nil => intro a; rfl
  | cons x xs ih =>
      intro a
      rw [List.map_cons, List.foldl_cons, List.foldl_cons]
      rw [show max (a + 1) (x + 1) = (max a x) + 1 from Nat.succ_max_succ a x, ih]

theorem foldl_max_zero_map_succ (l : List Nat) (hl : l ≠ []) :
    (l.map (fun n => n + 1)).foldl max 0 = (l.foldl max 0) + 1 := by
  cases l with
  | nil => exact absurd rfl hl
  | cons x xs =>
      rw [List.map_cons, List.foldl_cons, List.foldl_cons, Nat.zero_max, Nat.zero_max]
      exact foldl_max_map_succ xs x

/-- C5 counterexample: with a batch of one image and no ground truth at
all, the preprocessor's output row count per image is 0 — the zero-GT
image does not get even one sentinel row, refuting that conjunct of the
claim (the second dimension is `max_k g_k`, which here is 0). -/
theorem preprocess_all_empty_no_sentinel :
    ComputeLoss.preprocess [] 1 640 = [[]] ∧
    ((ComputeLoss.preprocess [] 1 640).getD 0 []).length = 0 := by
  constructor <;> rfl

/-- C5 (amended): for in-range image indices and a positive batch size,
`preprocess` returns `bs` per-image lists, the list of image `k` being its
`g_k` ground-truth rows (scaled by the image size then converted from
center to corner form, classes kept) in order, padded with sentinel rows
`(-1, (0,0,0,0))` to the common length `max_k g_k`; images with zero GT
thus consist entirely of sentinel rows — at least one whenever some image
in the batch has a GT row, and zero rows when no image does.
`ComputeLoss1.preprocess` is identical. -/
theorem preprocess_shape_padding (ts : List GtRow) (bs : Nat) (s : Rat)
    (hbs : 0 < bs) (himg : ∀ r ∈ ts, r.img < bs) :
    (ComputeLoss.preprocess ts bs s).length = bs ∧
    (∀ k, k < bs → (ComputeLoss.preprocess ts bs s).getD k []
        = (gtRowsOf ts k).map (ComputeLoss.convRow s)
          ++ List.replicate (maxGtCount ts bs - gtCount ts k) (-1, (⟨0, 0, 0, 0⟩ : Box))) ∧
    (∀ k, k < bs → ((ComputeLoss.preprocess ts bs s).getD k []).length = maxGtCount ts bs) ∧
    (∀ r : Row5, ComputeLoss.convRow s r
        = (r.cls, xywh2xyxy (r.x * s) (r.y * s) (r.w * s) (r.h * s))) ∧
    ComputeLoss1.preprocess ts bs s = ComputeLoss.preprocess ts bs s := by
  have hfill := fillTargets_eq ts bs himg
  have hrows_len : ∀ k, (gtRowsOf ts k).length = gtCount ts k := by
    intro k; simp [gtRowsOf, gtCount]
  have hmapped : ((List.range bs).map (fun k => Row5.zero :: gtRowsOf ts k)).map List.length
      = ((List.range bs).map (gtCount ts)).map (fun n => n + 1) := by
    rw [List.map_map, List.map_map]
    apply List.map_congr_left
    intro k _
    simp [Function.comp, hrows_len]
  have hne : ((List.range bs).map (gtCount ts)) ≠ [] := by
    simp [List.map_eq_nil_iff, List.range_eq_nil]
    omega
  have hmax : (((List.range bs).map (fun k => Row5.zero :: gtRowsOf ts k)).map List.length).foldl max 0
      = maxGtCount ts bs + 1 := by
    rw [hmapped, foldl_max_zero_map_succ _ hne]
    rfl
  have hconv : ComputeLoss.convRow s Row5.sentinel = (-1, (⟨0, 0, 0, 0⟩ : Box)) := by
    simp [ComputeLoss.convRow, Row5.sentinel, xywh2xyxy]
  have hgle : ∀ k, k < bs → gtCount ts k ≤ maxGtCount ts bs := by
    intro k hk
    exact mem_le_foldl_max _ (gtCount ts k)
      (List.mem_map_of_mem (gtCount ts) (List.mem_range.mpr hk)) 0
  have hgetD : ∀ k, k < bs → (ComputeLoss.preprocess ts bs s).getD k []
      = (gtRowsOf ts k).map (ComputeLoss.convRow s)
        ++ List.replicate (maxGtCount ts bs - gtCount ts k) (-1, (⟨0, 0, 0, 0⟩ : Box)) := by
    intro k hk
    simp only [ComputeLoss.preprocess, hfill]
    rw [List.map_map]
    rw [getD_map_range bs _ k hk]
    simp only [Function.comp_apply, List.length_cons, hrows_len, hmax]
    rw [Nat.add_sub_add_right]
    rw [List.cons_append]
    rw [List.drop_one, List.tail_cons]
    rw [List.map_append, List.map_replicate, hconv]
  refine ⟨?_, hgetD, ?_, fun r => rfl, rfl⟩
  · simp only [ComputeLoss.preprocess, hfill, List.length_map, List.length_range]
  · intro k hk
    rw [hgetD k hk]
    simp [hrows_len, Nat.add_sub_cancel' (hgle k hk)]

/-- Witness for C5: a two-image batch with one GT row in image 0 and none
in image 1 — image 1 consists of exactly one sentinel row. -/
theorem preprocess_shape_padding_witness :
    ((0 : Nat) < 2 ∧
      ∀ r ∈ ([⟨0, ⟨5, 1 / 2, 1 / 2, 1 / 4, 1 / 4⟩⟩] : List GtRow), r.img < 2) ∧
    (ComputeLoss.preprocess [⟨0, ⟨5, 1 / 2, 1 / 2, 1 / 4, 1 / 4⟩⟩] 2 640).length = 2 ∧
    (ComputeLoss.preprocess [⟨0, ⟨5, 1 / 2, 1 / 2, 1 / 4, 1 / 4⟩⟩] 2 640).getD 0 []
      = [(5, ⟨240, 240, 400, 400⟩)] ∧
    (ComputeLoss.preprocess [⟨0, ⟨5, 1 / 2, 1 / 2, 1 / 4, 1 / 4⟩⟩] 2 640).getD 1 []
      = [(-1, ⟨0, 0, 0, 0⟩)] := by
  have himg : ∀ r ∈ ([⟨0, ⟨5, 1 / 2, 1 / 2, 1 / 4, 1 / 4⟩⟩] : List GtRow), r.img < 2 := by
    intro r hr
    simp only [List.mem_singleton] at hr
    rw [hr]
    norm_num
  have hmain := preprocess_shape_padding [⟨0, ⟨5, 1 / 2, 1 / 2, 1 / 4, 1 / 4⟩⟩] 2 640
    (by norm_num) himg
  refine ⟨⟨by norm_num, himg⟩, hmain.1, ?_, ?_⟩
  · rw [hmain.2.1 0 (by norm_num)]
    norm_num [gtRowsOf, gtCount, maxGtCount, ComputeLoss.convRow, xywh2xyxy, List.range_succ]
  · rw [hmain.2.1 1 (by norm_num)]
    norm_num [gtRowsOf, gtCount, maxGtCount, List.range_succ]

/-- C7 counterexample: a `ComputeLoss1` run with `target_scores_sum = 1/2`.
Its classification loss is normalized (the raw value `1/2` is divided by
the sum, giving component `1`), but the distribution-focal loss is not
(its raw weighted sum `1/2` is returned undivided, component `1/2`, where
division would give `1`).  So the dfl normalization does not use the same
threshold as this composer's classification normalization, refuting the
claim for `ComputeLoss1`. -/
theorem dfl_threshold_mismatch_computeLoss1 :
    ComputeLoss1.lossPhase sampleEnv cfgS (tgT [[1 / 4]]) [[0, 0, 0, 0, 0, 0, 0, 0]] [boxA]
      [(1, 1)] [1] halfAssignment = Except.ok ⟨2, [1 / 2, 1 / 2, 1]⟩ ∧
    (1 : Rat) = (1 / 2) / (1 / 2) ∧ ¬((1 / 2 : Rat) = (1 / 2) / (1 / 2)) := by
  have hT : rescaleTargets [1] halfAssignment.targetBboxes.val
      = Except.ok [⟨0, 0, 1, 1⟩] := by
    norm_num [rescaleTargets, mapME, Box.cdiv, checkedDiv, ebind_ok, epure, halfAssignment, tgT]
  have hs : sum2 halfAssignment.targetScores.val = 1 / 2 := by
    norm_num [sum2, halfAssignment, tgT]
  have hB : BboxLoss.forward sampleEnv cfgS.regMax cfgS.useDfl cfgS.distEps
      [[0, 0, 0, 0, 0, 0, 0, 0]] [boxA] [(1, 1)] [⟨0, 0, 1, 1⟩]
      halfAssignment.targetScores.val (sum2 halfAssignment.targetScores.val)
      halfAssignment.fgMask.val = Except.ok (1 / 2, 1 / 2) := by
    rw [hs]
    norm_num [BboxLoss.forward, maskedSel, halfAssignment, tgT, boxA, cfgS, sum2,
      BboxLoss.dfLossRow, BboxLoss.dfLossSide, BboxLoss.ceChecked, mapME, chunksOf, chunksOfAux,
      bbox2dist, clampTo, ratTrunc, checkedDiv, ebind_ok, epure, sampleEnv]
    simp [ebind_ok, Prod.ext_iff]
  have hraw : clsLossRaw sampleEnv cfgS.numClasses (tgT [[1 / 4]]) halfAssignment = 1 / 2 := by
    norm_num [clsLossRaw, relabel, oneHotDrop, ratTrunc, VarifocalLoss.forward, zip3W2d, zip3W,
      zipW2d, sum2, sampleEnv, halfAssignment, tgT, cfgS, Tagged.toFloat32, promoteDt,
      List.range_succ]
  refine ⟨?_, by norm_num, by norm_num⟩
  have h0 : (0 : Rat) < sum2 halfAssignment.targetScores.val := by rw [hs]; norm_num
  have hs0 : sum2 halfAssignment.targetScores.val ≠ 0 := ne_of_gt h0
  simp only [ComputeLoss1.lossPhase, hT, ebind_ok, epure, if_pos h0, checkedDiv_ok _ hs0, hB,
    hraw]
  rw [hs]
  norm_num [cfgS]

/-- C7 (amended): per positive anchor and side, the distribution-focal
loss is `ce(lower) * (upper - t) + ce(upper) * (1 - (upper - t))` with
`lower = floor t` and `upper = floor t + 1` (for targets in `[0, reg_max)`
truncation equals floor); the per-anchor value is the mean of the 4 sides;
the rows are weighted by each anchor's total target score and the weighted
sum is divided by `target_scores_sum` exactly when that sum exceeds 1 —
the threshold of the primary composer's classification normalization
(`ComputeLoss1`'s classification threshold 0 differs, see the
counterexample). -/
theorem dfl_formula_normalization {F : Type} (env : Env F) (m : Nat) (distEps : Rat)
    (d : List Rat) (t : Rat) (d4 : List (List Rat)) (t4 : List Rat) (vs : List Rat)
    (predDist : List (List Rat)) (predBboxes : List Box) (anchorPoints : List (Rat × Rat))
    (targetBboxes : List Box) (targetScores : List (List Rat)) (tss : Rat)
    (fgMask : List Bool) (rows : List Rat)
    (h0 : 0 ≤ t) (hm' : t < m) (hd : d.length = m + 1)
    (hrow : mapME (fun p => BboxLoss.dfLossSide env p.1 p.2) (d4.zip t4) = Except.ok vs)
    (hn : vs.length = 4)
    (hfg : 0 < fgMask.count true)
    (hdfl : mapME (fun p => BboxLoss.dfLossRow env p.1 p.2)
        (((maskedSel fgMask predDist).map (chunksOf (m + 1))).zip
          (maskedSel fgMask (List.zipWith (fun ap tb => bbox2dist ap tb m distEps)
            anchorPoints targetBboxes))) = Except.ok rows) :
    BboxLoss.dfLossSide env d t
      = Except.ok (env.ce d ⌊t⌋ * ((⌊t⌋ : Rat) + 1 - t)
          + env.ce d (⌊t⌋ + 1) * (1 - ((⌊t⌋ : Rat) + 1 - t))) ∧
    BboxLoss.dfLossRow env d4 t4 = Except.ok (vs.sum / 4) ∧
    (∃ iouV, BboxLoss.forward env m true distEps predDist predBboxes anchorPoints
        targetBboxes targetScores tss fgMask
      = Except.ok (iouV,
          if 1 < tss then
            (List.zipWith (fun r w => r * w) rows
              (maskedSel fgMask (targetScores.map List.sum))).sum / tss
          else
            (List.zipWith (fun r w => r * w) rows
              (maskedSel fgMask (targetScores.map List.sum))).sum)) := by
  refine ⟨?_, ?_, ?_⟩
  · have htl : ratTrunc t = ⌊t⌋ := ratTrunc_of_nonneg h0
    have hA : (0 : Int) ≤ ⌊t⌋ := Int.floor_nonneg.mpr h0
    have hfloor : ⌊t⌋ < (m : Int) := Int.floor_lt.mpr (by exact_mod_cast hm')
    have hB2 : ⌊t⌋ < (d.length : Int) := by rw [hd]; push_cast; omega
    have hC : (0 : Int) ≤ ⌊t⌋ + 1 := by omega
    have hD : ⌊t⌋ + 1 < (d.length : Int) := by rw [hd]; push_cast; omega
    simp only [BboxLoss.dfLossSide, BboxLoss.ceChecked, htl]
    rw [if_pos ⟨hA, hB2⟩, if_pos ⟨hC, hD⟩]
    simp only [ebind_ok]
    push_cast
    ring_nf
  · simp only [BboxLoss.dfLossRow, hrow, ebind_ok, hn]
    norm_num [checkedDiv]
  · by_cases h1 : 1 < tss
    · have hs0 : tss ≠ 0 := by intro hc; rw [hc] at h1; exact absurd h1 (by norm_num)
      refine ⟨(List.zipWith (fun r w => r * w)
          (List.zipWith (fun pb tb => env.iou pb tb) (maskedSel fgMask predBboxes)
            (maskedSel fgMask targetBboxes))
          (maskedSel fgMask (targetScores.map List.sum))).sum / tss, ?_⟩
      simp only [BboxLoss.forward]
      rw [if_pos hfg]
      simp [if_pos h1, checkedDiv_ok _ hs0, hdfl, ebind_ok, epure]
    · refine ⟨(List.zipWith (fun r w => r * w)
          (List.zipWith (fun pb tb => env.iou pb tb) (maskedSel fgMask predBboxes)
            (maskedSel fgMask targetBboxes))
          (maskedSel fgMask (targetScores.map List.sum))).sum, ?_⟩
      simp only [BboxLoss.forward]
      rw [if_pos hfg]
      simp [if_neg h1, hdfl, ebind_ok, epure]

/-- Witness for C7: one positive anchor, four sides with target distance
`1/2`, per-side value 1, row mean 1, score weight 2, sum 2 normalized by
`target_scores_sum = 2 > 1`. -/
theorem dfl_formula_normalization_witness :
    ((0 : Rat) ≤ 1 / 2 ∧ (1 / 2 : Rat) < ((1 : Nat) : Rat) ∧
      ([0, 0] : List Rat).length = 1 + 1 ∧ 0 < ([true] : List Bool).count true) ∧
    BboxLoss.dfLossRow sampleEnv [[0, 0], [0, 0], [0, 0], [0, 0]] [1 / 2, 1 / 2, 1 / 2, 1 / 2]
      = Except.ok (([1, 1, 1, 1] : List Rat).sum / 4) ∧
    (∃ iouV, BboxLoss.forward sampleEnv 1 true (1 / 100) [[0, 0, 0, 0, 0, 0, 0, 0]] [boxA]
        [(1 / 2, 1 / 2)] [⟨0, 0, 1, 1⟩] [[2]] 2 [true]
      = Except.ok (iouV,
          if (1 : Rat) < 2 then
            (List.zipWith (fun r w => r * w) [1]
              (maskedSel [true] (([[2]] : List (List Rat)).map List.sum))).sum / 2
          else
            (List.zipWith (fun r w => r * w) [1]
              (maskedSel [true] (([[2]] : List (List Rat)).map List.sum))).sum)) := by
  have hrow : mapME (fun p => BboxLoss.dfLossSide sampleEnv p.1 p.2)
      (([[0, 0], [0, 0], [0, 0], [0, 0]] : List (List Rat)).zip
        ([1 / 2, 1 / 2, 1 / 2, 1 / 2] : List Rat)) = Except.ok [1, 1, 1, 1] := by
    norm_num [mapME, BboxLoss.dfLossSide, BboxLoss.ceChecked, ratTrunc, ebind_ok, epure,
      sampleEnv, List.zip_cons_cons]
  have hdfl : mapME (fun p => BboxLoss.dfLossRow sampleEnv p.1 p.2)
      (((maskedSel [true] [[0, 0, 0, 0, 0, 0, 0, 0]]).map (chunksOf (1 + 1))).zip
        (maskedSel [true] (List.zipWith (fun ap tb => bbox2dist ap tb 1 (1 / 100))
          [(1 / 2, 1 / 2)] [⟨0, 0, 1, 1⟩]))) = Except.ok [1] := by
    norm_num [mapME, maskedSel, chunksOf, chunksOfAux, bbox2dist, clampTo, BboxLoss.dfLossRow,
      BboxLoss.dfLossSide, BboxLoss.ceChecked, ratTrunc, checkedDiv, ebind_ok, epure, sampleEnv,
      List.zip_cons_cons]
    simp [ebind_ok]
  have hmain := dfl_formula_normalization sampleEnv 1 (1 / 100) [0, 0] (1 / 2)
    [[0, 0], [0, 0], [0, 0], [0, 0]] [1 / 2, 1 / 2, 1 / 2, 1 / 2] [1, 1, 1, 1]
    [[0, 0, 0, 0, 0, 0, 0, 0]] [boxA] [(1 / 2, 1 / 2)] [⟨0, 0, 1, 1⟩] [[2]] 2 [true] [1]
    (by norm_num) (by push_cast; norm_num) (by simp) hrow (by simp) (by simp) hdfl
  exact ⟨⟨by norm_num, by push_cast; norm_num, by simp, by simp⟩, hmain.2.1, hmain.2.2⟩

theorem lossPhase_eq_of_sum {F : Type} (env : Env F) (cfg : Cfg)
    (predScores : Tagged (List (List Rat))) (predDistri : List (List Rat))
    (predBboxes : List Box) (anchorPointsS : List (Rat × Rat)) (strideT : List Rat)
    (a : Assignment) (lambdaReg : Rat)
    (hs : 1 < sum2 a.targetScores.val ∨ sum2 a.targetScores.val = 0) :
    ComputeLoss.lossPhase env cfg predScores predDistri predBboxes anchorPointsS strideT a
        lambdaReg none
      = ComputeLoss1.lossPhase env cfg predScores predDistri predBboxes anchorPointsS
        strideT a := by
  unfold ComputeLoss.lossPhase ComputeLoss1.lossPhase
  cases hres : rescaleTargets strideT a.targetBboxes.val with
  | error e => simp [hres, ebind_err]
  | ok tb =>
      simp only [hres, ebind_ok]
      rcases hs with h1 | h0
      · have h0' : 0 < sum2 a.targetScores.val := lt_trans zero_lt_one h1
        rw [if_pos h1, if_pos h0']
      · rw [h0]
        norm_num

/-- C8: with identical configuration, identical collaborator environment
and identical inputs, `ComputeLoss.__call__` with `gating_decision = None`
and `ComputeLoss1.__call__` return the same total loss and component
vector whenever the assignment's `target_scores_sum` exceeds 1 or equals
0; the two classes otherwise differ only in their constructor default
loss weights (1.3/3.5/0.5 against 1.0/2.5/0.5) and in the classification
normalization threshold. -/
theorem composer_variants_equivalence {F : Type} (env : Env F) (cfg : Cfg) (feats : List F)
    (dev : Device) (dtp : Dtype) (bs : Nat) (predScoresV : List (List Rat))
    (predDistri : List (List Rat)) (targets : List GtRow) (epochNum stepNum : Int)
    (lambdaReg : Rat) (pre : ComputeLoss.PreOut) (a : Assignment)
    (hp : ComputeLoss.preOf env cfg feats bs predDistri targets = Except.ok pre)
    (ha : (ComputeLoss.assign env (ComputeLoss.assignInOf pre dev dtp predScoresV) epochNum
        cfg.warmupEpoch).2 = Except.ok a)
    (hs : 1 < sum2 a.targetScores.val ∨ sum2 a.targetScores.val = 0) :
    ComputeLoss.call env cfg feats dev dtp bs predScoresV predDistri targets epochNum stepNum
        lambdaReg none
      = ComputeLoss1.call env cfg feats dev dtp bs predScoresV predDistri targets epochNum
        stepNum ∧
    ComputeLoss.defaultLossWeight = (13 / 10, 7 / 2, 1 / 2) ∧
    ComputeLoss1.defaultLossWeight = (1, 5 / 2, 1 / 2) := by
  refine ⟨?_, rfl, rfl⟩
  have hpre1 : ComputeLoss1.preOf env cfg feats bs predDistri targets
      = ComputeLoss.preOf env cfg feats bs predDistri targets := rfl
  have hasg1 : ComputeLoss1.assign env (ComputeLoss.assignInOf pre dev dtp predScoresV)
      epochNum cfg.warmupEpoch
      = ComputeLoss.assign env (ComputeLoss.assignInOf pre dev dtp predScoresV) epochNum
        cfg.warmupEpoch := rfl
  simp only [ComputeLoss.call, ComputeLoss1.call, hpre1, hp, ebind_ok, hasg1, ha]
  exact lossPhase_eq_of_sum env cfg ⟨predScoresV, dev, dtp⟩ predDistri pre.predBboxes
    pre.anchorPointsS pre.ao.strideTensor a lambdaReg hs

/-- Witness for C8: a concrete end-to-end run (empty target batch, one
anchor, formal-assigner epoch, score sum 2 > 1) on which the two
composers' calls agree. -/
theorem composer_variants_equivalence_witness :
    ComputeLoss.preOf sampleEnv cfgS [()] 1 [[0, 0, 0, 0, 0, 0, 0, 0]] []
      = Except.ok ⟨⟨[boxA], [(4, 4)], [1], [8]⟩, [[]], [[]], [[]], [(1 / 2, 1 / 2)],
          [⟨1 / 2, 1 / 2, 1 / 2, 1 / 2⟩]⟩ ∧
    (ComputeLoss.assign sampleEnv
        (ComputeLoss.assignInOf ⟨⟨[boxA], [(4, 4)], [1], [8]⟩, [[]], [[]], [[]],
          [(1 / 2, 1 / 2)], [⟨1 / 2, 1 / 2, 1 / 2, 1 / 2⟩]⟩ Device.cuda Dtype.f16 [[1 / 4]]) 7
        cfgS.warmupEpoch).2 = Except.ok sampleAssignment ∧
    (1 < sum2 sampleAssignment.targetScores.val ∨ sum2 sampleAssignment.targetScores.val = 0) ∧
    ComputeLoss.call sampleEnv cfgS [()] Device.cuda Dtype.f16 1 [[1 / 4]]
        [[0, 0, 0, 0, 0, 0, 0, 0]] [] 7 0 0 none
      = ComputeLoss1.call sampleEnv cfgS [()] Device.cuda Dtype.f16 1 [[1 / 4]]
        [[0, 0, 0, 0, 0, 0, 0, 0]] [] 7 0 := by
  have hp : ComputeLoss.preOf sampleEnv cfgS [()] 1 [[0, 0, 0, 0, 0, 0, 0, 0]] []
      = Except.ok ⟨⟨[boxA], [(4, 4)], [1], [8]⟩, [[]], [[]], [[]], [(1 / 2, 1 / 2)],
          [⟨1 / 2, 1 / 2, 1 / 2, 1 / 2⟩]⟩ := by
    norm_num [ComputeLoss.preOf, ComputeLoss.preprocess, ComputeLoss.fillTargets,
      gtLabelsOf, gtBboxesOf, maskGtOf, mapME, checkedDiv, ComputeLoss.bboxDecode, chunksOf,
      chunksOfAux, dotL, projOf, dist2bbox, sampleEnv, cfgS, ebind_ok, epure, List.range_succ]
  have ha : (ComputeLoss.assign sampleEnv
      (ComputeLoss.assignInOf ⟨⟨[boxA], [(4, 4)], [1], [8]⟩, [[]], [[]], [[]],
        [(1 / 2, 1 / 2)], [⟨1 / 2, 1 / 2, 1 / 2, 1 / 2⟩]⟩ Device.cuda Dtype.f16 [[1 / 4]]) 7
      cfgS.warmupEpoch).2 = Except.ok sampleAssignment := by
    norm_num [ComputeLoss.assign, ComputeLoss.primaryAttempt, ComputeLoss.assignInOf,
      ComputeLoss.formalArgsOf, sampleEnv, cfgS]
  have hs : 1 < sum2 sampleAssignment.targetScores.val
      ∨ sum2 sampleAssignment.targetScores.val = 0 := by
    left
    norm_num [sum2, sampleAssignment, tgT]
  exact ⟨hp, ha, hs, (composer_variants_equivalence sampleEnv cfgS [()] Device.cuda Dtype.f16 1
    [[1 / 4]] [[0, 0, 0, 0, 0, 0, 0, 0]] [] 7 0 0 _ sampleAssignment hp ha hs).1⟩
